import Mathlib

/-!
# ZuluIDE firmware: bus phy, image search and SD card hot-plug

A shallow embedding of two source files of the firmware.

* `rp2040_ide_phy.cpp`: the static `g_ide_phy` record, the command exchange
  with the companion FPGA, and every `ide_phy_*` operation, with theorems
  about event polling, watchdog recovery, transfer start/stop, the last-word
  index and the double-buffered UltraDMA CRC check.
* `ZuluIDE.cpp`: `is_valid_filename`, `find_next_image`, `mountSDCard`,
  `load_image`, `zuluide_setup` and `zuluide_main_loop`, with theorems about
  the choice of the next image file and about SD card removal.
-/

namespace ZuluIDE

/-! ## Data model -/

/-- Modelled from the spec: `ide_phy_config_t` is declared in `ide_phy.h`; it
carries the device-enable flags `ide_phy_reset` reads (primary/secondary
present, ATAPI or ATA per device). -/
structure ide_phy_config_t where
  enable_dev0 : Bool
  enable_dev1 : Bool
  enable_dev1_zeros : Bool
  atapi_dev0 : Bool
  atapi_dev1 : Bool
deriving DecidableEq, Repr

/-- Modelled from the spec: `ide_event_t` is declared in `ide_phy.h`; these are
the five event codes `ide_phy_get_events` returns (none, hard reset, soft
reset, command latched, data transfer done). -/
inductive ide_event_t where
  | IDE_EVENT_NONE
  | IDE_EVENT_HWRST
  | IDE_EVENT_SWRST
  | IDE_EVENT_CMD
  | IDE_EVENT_DATA_TRANSFER_DONE
deriving DecidableEq, Repr

open ide_event_t

/-- Modelled from the spec: `ide_registers_t` is declared in `ide_phy.h`; it is
the task-file register block. The phy only ever inspects `device_control`;
the remaining bytes are carried along unexamined. -/
structure ide_registers_t where
  device_control : Nat
  others : List Nat
deriving DecidableEq, Repr

/-- Bit masks named by the driver whose numeric values live in
`rp2040_fpga.h` and `ide_constants.h`. They are kept as parameters: every
result below holds for any choice of masks. -/
structure PhyConsts where
  FPGA_STATUS_IDE_RST : Nat
  FPGA_STATUS_IDE_SRST : Nat
  FPGA_STATUS_IDE_CMD : Nat
  FPGA_STATUS_DATA_DIR : Nat
  FPGA_STATUS_TX_DONE : Nat
  FPGA_STATUS_RX_DONE : Nat
  FPGA_STATUS_TX_CANWRITE : Nat
  IDE_DEVCTRL_SRST : Nat
  IDE_STATUS_DEVRDY : Nat
  IDE_STATUS_DATAREQ : Nat
deriving DecidableEq, Repr

/-- One entry of the FPGA command log: the opcode together with the payload
bytes sent with it (`fpga_init` is logged as an entry of its own). -/
inductive FpgaCmd where
  | FPGA_INIT
  | READ_STATUS
  | READ_IDE_REGS
  | READ_UDMA_CRC
  | READ_DATABUF (blocklen : Nat)
  | SET_IDE_PHY_CFG (cfg : Nat)
  | CLR_IRQ_FLAGS (clrmask : Nat)
  | WRITE_IDE_REGS (regs : ide_registers_t)
  | START_WRITE (last_word_idx : Nat)
  | START_UDMA_WRITE (arg : List Nat)
  | START_READ (last_word_idx : Nat)
  | WRITE_DATABUF (buf : List Nat) (blocklen : Nat)
  | ASSERT_IRQ (ide_status : Nat)
deriving DecidableEq, Repr

/-- The companion chip as the driver sees it: for each read command the
answers it is going to give, oldest first, and the log of every command
issued so far, oldest first. -/
structure Fpga where
  status : List Nat
  regs : List ide_registers_t
  udma_crc : List Nat
  databuf_crc : List Nat
  databuf : List (List Nat)
  log : List FpgaCmd
deriving DecidableEq, Repr

/-- The static `g_ide_phy` record. `udma_mode` and `crc_errors` are C `int`s
and are kept as integers: the counter only ever grows by one per checked
block, and its signed overflow (undefined in C++, 2^31 mismatches within one
transfer away) is outside the model. The two CRC slots are `uint32_t`. -/
structure g_ide_phy_t where
  config : ide_phy_config_t
  transfer_running : Bool
  udma_mode : Int
  watchdog_error : Bool
  crc_errors : Int
  block_crc0 : Nat
  block_crc1 : Nat
deriving DecidableEq, Repr

/-- The whole machine: the driver state, the companion chip, and the
`logmsg` warnings written by `verify_crc` as pairs (calculated, host sent). -/
structure Machine where
  phy : g_ide_phy_t
  fpga : Fpga
  msgs : List (Nat × Nat)
deriving DecidableEq, Repr

/-- The two `uint32_t` CRC slots a `verify_crc` pointer can refer to. -/
inductive CrcSlot where
  | block_crc0
  | block_crc1
deriving DecidableEq, Repr

/-- Dereference of a slot pointer. -/
def CrcSlot.get (p : g_ide_phy_t) : CrcSlot → Nat
  | .block_crc0 => p.block_crc0
  | .block_crc1 => p.block_crc1

/-- Store through a slot pointer. -/
def CrcSlot.set (p : g_ide_phy_t) (v : Nat) : CrcSlot → g_ide_phy_t
  | .block_crc0 => { p with block_crc0 := v }
  | .block_crc1 => { p with block_crc1 := v }

/-- The flag `BLOCK_CRC_VALID` marking a slot that holds a CRC. -/
def BLOCK_CRC_VALID : Nat := 0x10000

/-- Modelled from the spec: `ide_phy_capabilities_t` is declared in
`ide_phy.h`; these are the fields `g_ide_phy_capabilities` initialises. -/
structure ide_phy_capabilities_t where
  max_blocksize : Nat
  supports_iordy : Bool
  max_pio_mode : Nat
  min_pio_cycletime_no_iordy : Nat
  min_pio_cycletime_with_iordy : Nat
  max_udma_mode : Int
deriving DecidableEq, Repr

/-- The `g_ide_phy_capabilities` table. -/
def g_ide_phy_capabilities : ide_phy_capabilities_t :=
  { max_blocksize := 4096
    supports_iordy := true
    max_pio_mode := 2
    min_pio_cycletime_no_iordy := 240
    min_pio_cycletime_with_iordy := 180
    max_udma_mode := 0 }

/-! ## Command exchange with the FPGA -/

/-- Modelled from the spec: `fpga_wrcmd` (rp2040_fpga.cpp) sends one command
with its payload to the companion chip; here it appends the command to the
log. -/
def fpga_wrcmd (f : Fpga) (c : FpgaCmd) : Fpga :=
  { f with log := f.log ++ [c] }

/-- Modelled from the spec: `fpga_init` (rp2040_fpga.cpp) reinitialises the
link to the companion chip; it does not touch `g_ide_phy`. -/
def fpga_init (f : Fpga) : Fpga :=
  { f with log := f.log ++ [FpgaCmd.FPGA_INIT] }

/-- Modelled from the spec: `fpga_rdcmd(FPGA_CMD_READ_STATUS, &status, 1)`
returns the chip's next status byte. -/
def fpga_rdcmd_READ_STATUS (f : Fpga) : Nat × Fpga :=
  (f.status.headD 0 % 256,
   { f with status := f.status.tail, log := f.log ++ [FpgaCmd.READ_STATUS] })

/-- Modelled from the spec: `fpga_rdcmd(FPGA_CMD_READ_IDE_REGS, ...)` returns
the chip's next copy of the task-file registers. -/
def fpga_rdcmd_READ_IDE_REGS (f : Fpga) : ide_registers_t × Fpga :=
  (f.regs.headD ⟨0, []⟩,
   { f with regs := f.regs.tail, log := f.log ++ [FpgaCmd.READ_IDE_REGS] })

/-- Modelled from the spec: `fpga_rdcmd(FPGA_CMD_READ_UDMA_CRC, &host_crc, 2)`
returns the next 16-bit CRC the chip received from the host. -/
def fpga_rdcmd_READ_UDMA_CRC (f : Fpga) : Nat × Fpga :=
  (f.udma_crc.headD 0 % 65536,
   { f with udma_crc := f.udma_crc.tail, log := f.log ++ [FpgaCmd.READ_UDMA_CRC] })

/-- Modelled from the spec: `fpga_rdcmd(FPGA_CMD_READ_DATABUF, buf, blocklen)`
returns the next received data block. -/
def fpga_rdcmd_READ_DATABUF (f : Fpga) (blocklen : Nat) : List Nat × Fpga :=
  (f.databuf.headD [],
   { f with databuf := f.databuf.tail, log := f.log ++ [FpgaCmd.READ_DATABUF blocklen] })

/-- Modelled from the spec: `fpga_wrcmd(FPGA_CMD_WRITE_DATABUF, buf, blocklen, &crc)`
writes a data block and returns the 16-bit CRC calculated over it. -/
def fpga_wrcmd_WRITE_DATABUF (f : Fpga) (buf : List Nat) (blocklen : Nat) : Nat × Fpga :=
  (f.databuf_crc.headD 0 % 65536,
   { f with databuf_crc := f.databuf_crc.tail,
            log := f.log ++ [FpgaCmd.WRITE_DATABUF buf blocklen] })

/-! ## The driver -/

/-- `verify_crc(uint32_t *block_crc)`. -/
def verify_crc (m : Machine) (block_crc : CrcSlot) : Machine :=
  let r := fpga_rdcmd_READ_UDMA_CRC m.fpga
  let host_crc := r.1
  let m1 : Machine := { m with fpga := r.2 }
  let m2 : Machine :=
    if block_crc.get m1.phy &&& BLOCK_CRC_VALID = 0 then
      m1
    else if block_crc.get m1.phy % 65536 ≠ host_crc then
      { m1 with
          msgs := m1.msgs ++ [(block_crc.get m1.phy % 65536, host_crc)]
          phy := { m1.phy with crc_errors := m1.phy.crc_errors + 1 } }
    else
      m1
  { m2 with phy := block_crc.set m2.phy 0 }

/-- The byte `cfg` assembled by `ide_phy_reset`. -/
def phy_cfg_byte (config : ide_phy_config_t) : Nat :=
  let cfg := 0
  let cfg := if config.enable_dev0 then cfg ||| 0x01 else cfg
  let cfg := if config.enable_dev1 then cfg ||| 0x02 else cfg
  let cfg := if config.enable_dev1_zeros then cfg ||| 0x04 else cfg
  let cfg := if config.atapi_dev0 then cfg ||| 0x08 else cfg
  let cfg := if config.atapi_dev1 then cfg ||| 0x10 else cfg
  cfg

/-- `ide_phy_reset(const ide_phy_config_t* config)`. -/
def ide_phy_reset (m : Machine) (config : ide_phy_config_t) : Machine :=
  let p := { m.phy with config := config, watchdog_error := false }
  let f := fpga_init m.fpga
  let f := fpga_wrcmd f (FpgaCmd.SET_IDE_PHY_CFG (phy_cfg_byte config))
  { m with phy := p, fpga := f }

/-- `ide_phy_reset_from_watchdog()`. -/
def ide_phy_reset_from_watchdog (m : Machine) : Machine :=
  { m with phy := { m.phy with watchdog_error := true } }

/-- `ide_phy_get_events()`. -/
def ide_phy_get_events (K : PhyConsts) (m : Machine) : ide_event_t × Machine :=
  let r := fpga_rdcmd_READ_STATUS m.fpga
  let status := r.1
  let m : Machine := { m with fpga := r.2 }
  if m.phy.watchdog_error then
    (IDE_EVENT_HWRST, ide_phy_reset m m.phy.config)
  else if status &&& K.FPGA_STATUS_IDE_RST ≠ 0 then
    let clrmask := K.FPGA_STATUS_IDE_RST
    (IDE_EVENT_HWRST, { m with fpga := fpga_wrcmd m.fpga (FpgaCmd.CLR_IRQ_FLAGS clrmask) })
  else if status &&& K.FPGA_STATUS_IDE_SRST ≠ 0 then
    let rr := fpga_rdcmd_READ_IDE_REGS m.fpga
    let regs := rr.1
    let m : Machine := { m with fpga := rr.2 }
    if regs.device_control &&& K.IDE_DEVCTRL_SRST = 0 then
      let clrmask := K.FPGA_STATUS_IDE_SRST
      (IDE_EVENT_SWRST, { m with fpga := fpga_wrcmd m.fpga (FpgaCmd.CLR_IRQ_FLAGS clrmask) })
    else
      (IDE_EVENT_NONE, m)
  else if status &&& K.FPGA_STATUS_IDE_CMD ≠ 0 then
    let clrmask := K.FPGA_STATUS_IDE_CMD
    (IDE_EVENT_CMD, { m with fpga := fpga_wrcmd m.fpga (FpgaCmd.CLR_IRQ_FLAGS clrmask) })
  else if m.phy.transfer_running then
    if status &&& K.FPGA_STATUS_DATA_DIR ≠ 0 then
      if status &&& K.FPGA_STATUS_TX_DONE ≠ 0 then
        (IDE_EVENT_DATA_TRANSFER_DONE, { m with phy := { m.phy with transfer_running := false } })
      else
        (IDE_EVENT_NONE, m)
    else
      if status &&& K.FPGA_STATUS_RX_DONE ≠ 0 then
        (IDE_EVENT_DATA_TRANSFER_DONE, { m with phy := { m.phy with transfer_running := false } })
      else
        (IDE_EVENT_NONE, m)
  else
    (IDE_EVENT_NONE, m)

/-- `ide_phy_get_regs(ide_registers_t *regs)`. -/
def ide_phy_get_regs (m : Machine) : ide_registers_t × Machine :=
  let r := fpga_rdcmd_READ_IDE_REGS m.fpga
  (r.1, { m with fpga := r.2 })

/-- `ide_phy_set_regs(const ide_registers_t *regs)`. -/
def ide_phy_set_regs (m : Machine) (regs : ide_registers_t) : Machine :=
  { m with fpga := fpga_wrcmd m.fpga (FpgaCmd.WRITE_IDE_REGS regs) }

/-- `ide_phy_assert_irq(uint8_t ide_status)`. -/
def ide_phy_assert_irq (m : Machine) (ide_status : Nat) : Machine :=
  { m with fpga := fpga_wrcmd m.fpga (FpgaCmd.ASSERT_IRQ (ide_status % 256)) }

/-- The `uint16_t last_word_idx = blocklen / 2 - 1` of the two start
functions: the subtraction is done on `uint32_t` and the result is cut to 16
bits. -/
def last_word_idx (blocklen : Nat) : Nat :=
  ((blocklen % 2 ^ 32 / 2 + (2 ^ 32 - 1)) % 2 ^ 32) % 2 ^ 16

/-- `ide_phy_start_write(uint32_t blocklen, int udma_mode)`; `none` when the
assertion on the block length fails. -/
def ide_phy_start_write (m : Machine) (blocklen : Nat) (udma_mode : Int) : Option Machine :=
  let p := { m.phy with crc_errors := 0, block_crc0 := 0, block_crc1 := 0 }
  if blocklen % 2 ^ 32 &&& 1 ≠ 0 then
    none
  else
    let idx := last_word_idx blocklen
    if udma_mode < 0 then
      some { m with
        fpga := fpga_wrcmd m.fpga (FpgaCmd.START_WRITE idx)
        phy := { p with udma_mode := -1 } }
    else
      let arg := [(udma_mode % 256).toNat, idx % 256, (idx >>> 8) % 256]
      some { m with
        fpga := fpga_wrcmd m.fpga (FpgaCmd.START_UDMA_WRITE arg)
        phy := { p with udma_mode := udma_mode } }

/-- `ide_phy_can_write_block()`; `none` when the assertion on the data
direction fails. -/
def ide_phy_can_write_block (K : PhyConsts) (m : Machine) : Option (Bool × Machine) :=
  let r := fpga_rdcmd_READ_STATUS m.fpga
  let status := r.1
  if status &&& K.FPGA_STATUS_DATA_DIR = 0 then
    none
  else
    some (decide (status &&& K.FPGA_STATUS_TX_CANWRITE ≠ 0), { m with fpga := r.2 })

/-- `ide_phy_write_block(const uint8_t *buf, uint32_t blocklen)`. -/
def ide_phy_write_block (m : Machine) (buf : List Nat) (blocklen : Nat) : Machine :=
  let m : Machine :=
    if 0 ≤ m.phy.udma_mode ∧ m.phy.block_crc1 &&& BLOCK_CRC_VALID ≠ 0 then
      verify_crc m CrcSlot.block_crc1
    else
      m
  let w := fpga_wrcmd_WRITE_DATABUF m.fpga buf blocklen
  let crc := w.1
  { m with
    fpga := w.2
    phy := { m.phy with
      transfer_running := true
      block_crc1 := m.phy.block_crc0
      block_crc0 := crc ||| BLOCK_CRC_VALID } }

/-- `ide_phy_is_write_finished()`. -/
def ide_phy_is_write_finished (K : PhyConsts) (m : Machine) : Bool × Machine :=
  let r := fpga_rdcmd_READ_STATUS m.fpga
  let status := r.1
  let m : Machine := { m with fpga := r.2 }
  if status &&& K.FPGA_STATUS_DATA_DIR = 0 ∨ status &&& K.FPGA_STATUS_TX_DONE ≠ 0 then
    let m : Machine :=
      if 0 ≤ m.phy.udma_mode then
        verify_crc (verify_crc m CrcSlot.block_crc1) CrcSlot.block_crc0
      else
        m
    (true, { m with phy := { m.phy with transfer_running := false } })
  else
    (false, m)

/-- `ide_phy_start_read(uint32_t blocklen, int udma_mode)`; `none` when the
assertion on the block length fails. -/
def ide_phy_start_read (K : PhyConsts) (m : Machine) (blocklen : Nat) (_udma_mode : Int) :
    Option Machine :=
  let p := { m.phy with crc_errors := 0, block_crc0 := 0, block_crc1 := 0 }
  if blocklen % 2 ^ 32 &&& 1 ≠ 0 then
    none
  else
    let idx := last_word_idx blocklen
    let m : Machine :=
      { m with
        fpga := fpga_wrcmd m.fpga (FpgaCmd.START_READ idx)
        phy := { p with transfer_running := true, udma_mode := -1 } }
    some (ide_phy_assert_irq m (K.IDE_STATUS_DEVRDY ||| K.IDE_STATUS_DATAREQ))

/-- `ide_phy_can_read_block()`; `none` when the assertion on the data
direction fails. -/
def ide_phy_can_read_block (K : PhyConsts) (m : Machine) : Option (Bool × Machine) :=
  let r := fpga_rdcmd_READ_STATUS m.fpga
  let status := r.1
  if status &&& K.FPGA_STATUS_DATA_DIR ≠ 0 then
    none
  else
    some (decide (status &&& K.FPGA_STATUS_RX_DONE ≠ 0), { m with fpga := r.2 })

/-- `ide_phy_read_block(uint8_t *buf, uint32_t blocklen)`. -/
def ide_phy_read_block (m : Machine) (blocklen : Nat) : List Nat × Machine :=
  let r := fpga_rdcmd_READ_DATABUF m.fpga (blocklen % 2 ^ 32)
  (r.1, { m with fpga := r.2 })

/-- `ide_phy_stop_transfers(int *crc_errors)`. The pointer is modelled by
`crc_errors_ptr`: `true` for a pointer to an `int`, `false` for a null
pointer; the first component is what was stored through it, if anything. -/
def ide_phy_stop_transfers (m : Machine) (crc_errors_ptr : Bool) : Option Int × Machine :=
  let arg := 65535
  let m : Machine :=
    { m with
      fpga := fpga_wrcmd m.fpga (FpgaCmd.START_WRITE arg)
      phy := { m.phy with transfer_running := false, udma_mode := -1 } }
  (if crc_errors_ptr then some m.phy.crc_errors else none, m)

/-- `ide_phy_get_capabilities()`. -/
def ide_phy_get_capabilities : ide_phy_capabilities_t :=
  g_ide_phy_capabilities

/-! ## Sequences of phy calls -/

/-- One call of the phy interface, with its arguments. -/
inductive PhyOp where
  | reset (config : ide_phy_config_t)
  | reset_from_watchdog
  | get_events
  | get_regs
  | set_regs (regs : ide_registers_t)
  | start_write (blocklen : Nat) (udma_mode : Int)
  | can_write_block
  | write_block (buf : List Nat) (blocklen : Nat)
  | is_write_finished
  | start_read (blocklen : Nat) (udma_mode : Int)
  | can_read_block
  | read_block (blocklen : Nat)
  | stop_transfers (crc_errors_ptr : Bool)
  | assert_irq (ide_status : Nat)
  | get_capabilities
deriving DecidableEq, Repr

/-- The machine after one call; `none` when an assertion stops the firmware. -/
def step (K : PhyConsts) (m : Machine) : PhyOp → Option Machine
  | .reset config => some (ide_phy_reset m config)
  | .reset_from_watchdog => some (ide_phy_reset_from_watchdog m)
  | .get_events => some (ide_phy_get_events K m).2
  | .get_regs => some (ide_phy_get_regs m).2
  | .set_regs regs => some (ide_phy_set_regs m regs)
  | .start_write blocklen udma_mode => ide_phy_start_write m blocklen udma_mode
  | .can_write_block => (ide_phy_can_write_block K m).map Prod.snd
  | .write_block buf blocklen => some (ide_phy_write_block m buf blocklen)
  | .is_write_finished => some (ide_phy_is_write_finished K m).2
  | .start_read blocklen udma_mode => ide_phy_start_read K m blocklen udma_mode
  | .can_read_block => (ide_phy_can_read_block K m).map Prod.snd
  | .read_block blocklen => some (ide_phy_read_block m blocklen).2
  | .stop_transfers crc_errors_ptr => some (ide_phy_stop_transfers m crc_errors_ptr).2
  | .assert_irq ide_status => some (ide_phy_assert_irq m ide_status)
  | .get_capabilities => some m

/-- The machine after a sequence of calls. -/
def run (K : PhyConsts) (m : Machine) : List PhyOp → Option Machine
  | [] => some m
  | op :: ops => (step K m op).bind (fun m1 => run K m1 ops)

/-- Whether the assertion made by a call, if it makes one, holds in state
`m`: an even block length for the two start calls, the expected data
direction in the next status byte for the two `can_` calls. -/
def assert_holds (K : PhyConsts) (m : Machine) : PhyOp → Bool
  | .start_write blocklen _ => decide (blocklen % 2 = 0)
  | .start_read blocklen _ => decide (blocklen % 2 = 0)
  | .can_write_block =>
    decide ((m.fpga.status.headD 0 % 256) &&& K.FPGA_STATUS_DATA_DIR ≠ 0)
  | .can_read_block =>
    decide ((m.fpga.status.headD 0 % 256) &&& K.FPGA_STATUS_DATA_DIR = 0)
  | _ => true

/-- The calls of the data phase of a write: `ide_phy_write_block` and
`ide_phy_is_write_finished`. -/
def PhyOp.is_write_phase : PhyOp → Bool
  | .write_block _ _ => true
  | .is_write_finished => true
  | _ => false

/-- The calls that begin a transfer: `ide_phy_start_write` and
`ide_phy_start_read`. -/
def PhyOp.is_start : PhyOp → Bool
  | .start_write _ _ => true
  | .start_read _ _ => true
  | _ => false

/-- The calls that set `transfer_running`: `ide_phy_write_block` and
`ide_phy_start_read`. -/
def PhyOp.sets_running : PhyOp → Bool
  | .write_block _ _ => true
  | .start_read _ _ => true
  | _ => false

/-- Whether a CRC slot, checked against the host CRC `host_crc`, counts as a
mismatch: the slot holds a CRC and its low 16 bits differ from the host's. -/
def crc_mismatch (block_crc host_crc : Nat) : Bool :=
  decide (block_crc &&& BLOCK_CRC_VALID ≠ 0) && decide (block_crc % 65536 ≠ host_crc % 65536)

/-- Number of mismatches when the calculated CRCs `crcs` are checked, in
order, against the answers `hosts` of successive READ_UDMA_CRC exchanges. -/
def crc_mismatches : List Nat → List Nat → Nat
  | [], _ => 0
  | c :: cs, hosts =>
    (if c % 65536 ≠ hosts.headD 0 % 65536 then 1 else 0) + crc_mismatches cs hosts.tail

/-- One block of a write transfer as the chip reports it: the data, the CRC
calculated while writing it, and the CRC the host sent for it. -/
structure Block where
  buf : List Nat
  crc : Nat
  host : Nat
deriving DecidableEq, Repr

/-- The answers READ_UDMA_CRC gives over a transfer of `blocks`: one host
CRC per block, in order; in a one-block transfer the chip's first answer
belongs to the empty second buffer and carries no host CRC (`junk`). -/
def udma_crc_answers (blocks : List Block) (junk : Nat) : List Nat :=
  (if blocks.length = 1 then [junk] else []) ++ blocks.map Block.host

/-- The condition under which `ide_phy_is_write_finished` returns true. -/
def write_finished_status (K : PhyConsts) (status : Nat) : Prop :=
  status &&& K.FPGA_STATUS_DATA_DIR = 0 ∨ status &&& K.FPGA_STATUS_TX_DONE ≠ 0

instance (K : PhyConsts) (status : Nat) : Decidable (write_finished_status K status) := by
  unfold write_finished_status; infer_instance

/-- All the `ide_phy_write_block` calls of a transfer, in order. -/
def write_blocks (m : Machine) (blocklen : Nat) (bufs : List (List Nat)) : Machine :=
  bufs.foldl (fun m buf => ide_phy_write_block m buf blocklen) m

/-- The commands sent to the chip between machine `m` and a later machine
`m1`. -/
def commands_sent (m m1 : Machine) : List FpgaCmd :=
  m1.fpga.log.drop m.fpga.log.length

/-- Number of READ_UDMA_CRC exchanges made between `m` and `m1`. -/
def crc_reads (m m1 : Machine) : Nat :=
  (commands_sent m m1).count FpgaCmd.READ_UDMA_CRC

/-- Number of CRC slots that hold a CRC in `m` and whose CRC is gone in `m1`:
slot 1 counts when its value changed, slot 0 when its value is neither still
in slot 0 nor shifted into slot 1. -/
def lost_slots (m m1 : Machine) : Nat :=
  (if m.phy.block_crc1 &&& BLOCK_CRC_VALID ≠ 0 ∧ m1.phy.block_crc1 ≠ m.phy.block_crc1
    then 1 else 0) +
  (if m.phy.block_crc0 &&& BLOCK_CRC_VALID ≠ 0 ∧ m1.phy.block_crc0 ≠ m.phy.block_crc0 ∧
      m1.phy.block_crc1 ≠ m.phy.block_crc0
    then 1 else 0)

/-- "CRC slots are drained (verified) before being overwritten", for one call
`op` made in state `m`: in UltraDMA mode, every slot whose CRC the call
replaces or clears is matched by a READ_UDMA_CRC exchange made by the call. -/
def drains_before_overwrite (K : PhyConsts) (m : Machine) (op : PhyOp) : Prop :=
  ∀ m1, step K m op = some m1 → 0 ≤ m.phy.udma_mode → lost_slots m m1 ≤ crc_reads m m1

/-! ## Concrete inputs -/

/-- The status byte the next `READ_STATUS` exchange is going to return. -/
def next_status (m : Machine) : Nat :=
  m.fpga.status.headD 0 % 256

/-- The device-control register the next `READ_IDE_REGS` exchange is going to
return. -/
def next_device_control (m : Machine) : Nat :=
  (m.fpga.regs.headD ⟨0, []⟩).device_control

/-- One assignment of the masks, with every status flag on a bit of its own,
used to evaluate the driver on concrete inputs. -/
def sample_consts : PhyConsts :=
  { FPGA_STATUS_IDE_RST := 0x80
    FPGA_STATUS_IDE_SRST := 0x40
    FPGA_STATUS_IDE_CMD := 0x20
    FPGA_STATUS_DATA_DIR := 0x01
    FPGA_STATUS_TX_DONE := 0x04
    FPGA_STATUS_RX_DONE := 0x08
    FPGA_STATUS_TX_CANWRITE := 0x02
    IDE_DEVCTRL_SRST := 0x04
    IDE_STATUS_DEVRDY := 0x40
    IDE_STATUS_DATAREQ := 0x08 }

/-- A companion chip that has been sent nothing yet and will give the listed
answers. -/
def fpga_with (status : List Nat) (devctrl : List Nat) (udma_crc : List Nat)
    (databuf_crc : List Nat) : Fpga :=
  { status := status
    regs := devctrl.map (fun d => ⟨d, []⟩)
    udma_crc := udma_crc
    databuf_crc := databuf_crc
    databuf := []
    log := [] }

/-- The machine at power-up: `g_ide_phy` is a zero-initialised static. -/
def boot (f : Fpga) : Machine :=
  { phy :=
      { config := ⟨false, false, false, false, false⟩
        transfer_running := false
        udma_mode := 0
        watchdog_error := false
        crc_errors := 0
        block_crc0 := 0
        block_crc1 := 0 }
    fpga := f
    msgs := [] }

/-- The machine in the middle of an UltraDMA mode 0 transfer of 512-byte
blocks: one block written, its CRC 0x1234 waiting in slot 0, the host's CRC
0xBEEF not yet read. -/
def mid_transfer : Machine :=
  { phy :=
      { config := ⟨false, false, false, false, false⟩
        transfer_running := true
        udma_mode := 0
        watchdog_error := false
        crc_errors := 0
        block_crc0 := 0x11234
        block_crc1 := 0 }
    fpga :=
      { status := []
        regs := []
        udma_crc := [0xBEEF]
        databuf_crc := []
        databuf := []
        log := [FpgaCmd.START_UDMA_WRITE [0, 255, 0], FpgaCmd.WRITE_DATABUF [0xAA, 0x55] 512] }
    msgs := [] }

/-- The machine after a one-block UltraDMA transfer whose CRC mismatched,
followed by a new `ide_phy_start_write` and three blocks of which the first
mismatched. -/
def second_transfer : Machine :=
  { phy :=
      { config := ⟨false, false, false, false, false⟩
        transfer_running := true
        udma_mode := 0
        watchdog_error := false
        crc_errors := 1
        block_crc0 := 0x14444
        block_crc1 := 0x13333 }
    fpga :=
      { status := []
        regs := []
        udma_crc := []
        databuf_crc := []
        databuf := []
        log :=
          [FpgaCmd.START_UDMA_WRITE [0, 255, 0], FpgaCmd.WRITE_DATABUF [1] 512,
           FpgaCmd.READ_STATUS, FpgaCmd.READ_UDMA_CRC, FpgaCmd.READ_UDMA_CRC,
           FpgaCmd.START_UDMA_WRITE [0, 255, 0], FpgaCmd.WRITE_DATABUF [2] 512,
           FpgaCmd.WRITE_DATABUF [3] 512, FpgaCmd.READ_UDMA_CRC,
           FpgaCmd.WRITE_DATABUF [4] 512] }
    msgs := [(0x1111, 0x0BAD), (0x2222, 0x0BAD)] }

/-! ## Image file search (`ZuluIDE.cpp`) -/

/-- The bytes of a string literal: a C string without its terminating NUL. -/
def cstr (s : String) : List Nat :=
  s.toList.map Char.toNat

/-- A list of bytes is the content of a C string when none of them is NUL (and
each fits a `char`). -/
def is_cstring (s : List Nat) : Prop :=
  ∀ b ∈ s, 1 ≤ b ∧ b ≤ 255

instance (s : List Nat) : Decidable (is_cstring s) := by
  unfold is_cstring; infer_instance

/-- The C library's `tolower` in the "C" locale. -/
def tolower (c : Nat) : Nat :=
  if 65 ≤ c ∧ c ≤ 90 then c + 32 else c

/-- The C library's `isalnum` in the "C" locale. -/
def isalnum (c : Nat) : Bool :=
  decide ((48 ≤ c ∧ c ≤ 57) ∨ (65 ≤ c ∧ c ≤ 90) ∨ (97 ≤ c ∧ c ≤ 122))

/-- The C library's `strcasecmp`: the difference of the first pair of bytes
that differ after `tolower`, the end of a string counting as byte 0. -/
def strcasecmp : List Nat → List Nat → Int
  | [], [] => 0
  | [], c2 :: _ => 0 - (tolower c2 : Int)
  | c1 :: _, [] => (tolower c1 : Int) - 0
  | c1 :: s1, c2 :: s2 =>
    if (tolower c1 : Int) - (tolower c2 : Int) ≠ 0 then (tolower c1 : Int) - (tolower c2 : Int)
    else strcasecmp s1 s2

/-- The C library's `strrchr` for a byte `c` other than NUL: the tail of the
string that starts at the last occurrence of `c`, or `none` (a null pointer)
when `c` does not occur. -/
def strrchr (s : List Nat) (c : Nat) : Option (List Nat) :=
  match s with
  | [] => none
  | x :: xs =>
    match strrchr xs c with
    | some r => some r
    | none => if x = c then some (x :: xs) else none

/-- `is_valid_filename(const char *name)`. -/
def is_valid_filename (name : List Nat) : Bool :=
  if strcasecmp name (cstr "ice5lp1k_top_bitmap.bin") = 0 then
    false
  else if ¬ isalnum (name.headD 0) then
    false
  else
    true

/-- One directory entry as `FsFile::openNext` delivers it: its name and
whether it is a directory. -/
structure DirEntry where
  name : List Nat
  isDirectory : Bool
deriving DecidableEq, Repr

/-- `FsFile::getName(buf, size)` of the SdFat library, for a name that fits the
buffer together with its NUL; a name that does not fit is outside the model
(`none`). -/
def getName (name : List Nat) (size : Nat) : Option (List Nat) :=
  if name.length < size then some name else none

/-- The `while (file.openNext(&root, O_RDONLY))` loop of `find_next_image`,
over the entries still to come, with the current content of `result`.
`MAX_FILE_PATH` (ZuluIDE_config.h) is the size of `candidate`. -/
def find_next_image_loop (MAX_FILE_PATH buflen : Nat) (prev_image : Option (List Nat)) :
    List DirEntry → List Nat → Option (List Nat)
  | [], result => some result
  | file :: files, result =>
    if file.isDirectory then
      find_next_image_loop MAX_FILE_PATH buflen prev_image files result
    else
      match getName file.name MAX_FILE_PATH with
      | none => none
      | some candidate =>
        let extension := strrchr candidate 46
        if ¬ is_valid_filename candidate then
          find_next_image_loop MAX_FILE_PATH buflen prev_image files result
        else if extension = none ∨
            (strcasecmp (extension.getD []) (cstr ".iso") ≠ 0 ∧
             strcasecmp (extension.getD []) (cstr ".bin") ≠ 0) then
          find_next_image_loop MAX_FILE_PATH buflen prev_image files result
        else if prev_image ≠ none ∧ strcasecmp candidate (prev_image.getD []) ≤ 0 then
          find_next_image_loop MAX_FILE_PATH buflen prev_image files result
        else if result.headD 0 ≠ 0 ∧ strcasecmp candidate result ≥ 0 then
          find_next_image_loop MAX_FILE_PATH buflen prev_image files result
        else
          match getName file.name buflen with
          | none => none
          | some best => find_next_image_loop MAX_FILE_PATH buflen prev_image files best

/-- `find_next_image(directory, prev_image, result, buflen)`. `root` is what
`root.open(directory)` gives: `none` when the directory cannot be opened, else
its entries in directory order. `prev_image` is `none` for a null pointer.
The value is the return value paired with the final content of `result`. -/
def find_next_image (MAX_FILE_PATH : Nat) (root : Option (List DirEntry))
    (prev_image : Option (List Nat)) (result : List Nat) (buflen : Nat) :
    Option (Bool × List Nat) :=
  match root with
  | none => some (false, result)
  | some entries =>
    (find_next_image_loop MAX_FILE_PATH buflen prev_image entries []).map
      (fun r => (decide (r.headD 0 ≠ 0), r))

/-- "Ends in .iso or .bin (case-insensitive)": the name, lowered, has one of
the two suffixes. -/
def has_image_suffix (name : List Nat) : Bool :=
  (cstr ".iso").isSuffixOf (name.map tolower) || (cstr ".bin").isSuffixOf (name.map tolower)

/-- The entries `find_next_image` is to choose from: not a directory, passing
`is_valid_filename`, ending in .iso or .bin, and comparing strictly greater
than `prev_image` when one is given. -/
def is_next_image (prev_image : Option (List Nat)) (e : DirEntry) : Bool :=
  !e.isDirectory && is_valid_filename e.name && has_image_suffix e.name &&
    (match prev_image with
     | none => true
     | some p => decide (0 < strcasecmp e.name p))

/-- The better of the current `result` and one more entry: the entry's name
when it is a candidate and `result` is still empty or compares greater. -/
def pick_image (prev_image : Option (List Nat)) (result : List Nat) (file : DirEntry) : List Nat :=
  if is_next_image prev_image file = true ∧
      (result.headD 0 = 0 ∨ strcasecmp file.name result < 0) then file.name
  else result

/-- A file entry with the given name. -/
def file_entry (name : String) : DirEntry :=
  ⟨cstr name, false⟩

/-- A root directory used to evaluate the search: a directory whose name looks
like an image, images in mixed case, a text file, the FPGA bitstream and a
name starting with a special character. -/
def sample_root : List DirEntry :=
  [⟨cstr "zz.iso", true⟩, file_entry "c.iso", file_entry "readme.txt", file_entry "b.ISO",
   file_entry "ice5lp1k_top_bitmap.bin", file_entry "_x.iso", file_entry "A.bin"]

/-! ## SD card hot-plug (`ZuluIDE.cpp`) -/

/-- The image objects an `IDEImage*` of the firmware can point to: there is
one, the static `g_ide_imagefile`. -/
inductive IDEImageRef where
  | g_ide_imagefile
deriving DecidableEq, Repr

/-- The part of `IDEATAPIDevice` (ide_atapi.h) the hot-plug code acts on: the
`m_image` pointer, `none` for a null pointer. Both `g_ide_cdrom` and
`g_ide_zipdrive` are devices of this class. -/
structure IDEATAPIDevice where
  m_image : Option IDEImageRef
deriving DecidableEq, Repr

/-- Modelled from the spec: `IDEATAPIDevice::set_image` is defined in
`ide_atapi.cpp`; it binds a block image to the device or, given a null
pointer, unbinds it. -/
def IDEATAPIDevice.set_image (_d : IDEATAPIDevice) (image : Option IDEImageRef) :
    IDEATAPIDevice :=
  { m_image := image }

/-- `IDEATAPIDevice::is_medium_present()`. -/
def IDEATAPIDevice.is_medium_present (d : IDEATAPIDevice) : Bool :=
  decide (d.m_image ≠ none)

/-- The devices `g_ide_device` can point to. -/
inductive IDEDeviceRef where
  | g_ide_cdrom
  | g_ide_zipdrive
deriving DecidableEq, Repr

/-- Modelled from the spec: `IDEImageFile` is declared in `ide_imagefile.h`;
the model keeps the name of the file it has open, if any. -/
structure IDEImageFile where
  file : Option (List Nat)
deriving DecidableEq, Repr

/-- Calls into code outside `ZuluIDE.cpp` (platform, LED, log file, protocol
layer) and log messages, recorded in the order they are made. -/
inductive Effect where
  | platform_init
  | platform_late_init
  | platform_reset_watchdog
  | platform_poll
  | blink_poll
  | save_logfile
  | ide_protocol_poll
  | logmsg (text : String)
  | blinkStatus (count : Nat)
  | logfile_close
  | print_sd_info
  | init_logfile
  | platform_disable_led
  | ide_protocol_init (primary secondary : Option IDEDeviceRef)
deriving DecidableEq, Repr

/-- Blink code `BLINK_STATUS_OK`. -/
def BLINK_STATUS_OK : Nat := 1

/-- Blink code `BLINK_ERROR_NO_IMAGES`. -/
def BLINK_ERROR_NO_IMAGES : Nat := 3

/-- Blink code `BLINK_ERROR_NO_SD_CARD`. -/
def BLINK_ERROR_NO_SD_CARD : Nat := 5

/-- The statics of `ZuluIDE.cpp` that the mounting and hot-plug code reads or
writes, and the record of its outside calls. -/
structure Firmware where
  g_sdcard_present : Bool
  g_ide_cdrom : IDEATAPIDevice
  g_ide_zipdrive : IDEATAPIDevice
  g_ide_imagefile : IDEImageFile
  g_ide_device : Option IDEDeviceRef
  sd_card_check_time : Nat
  first_loop : Bool
  effects : List Effect
deriving DecidableEq, Repr

/-- What the SdFat library finds when the card is accessed: the results of
`SD.begin(SD_CONFIG)`, of `SD.card() && SD.sdErrorCode() == 0`, of mounting
the whole card as FAT, of `SD.clusterCount() == 0`, and of opening the root
directory. -/
structure SdCard where
  begin_ok : Bool
  card_ok : Bool
  whole_card_ok : Bool
  no_clusters : Bool
  root : Option (List DirEntry)
deriving DecidableEq, Repr

/-- What one pass of `zuluide_main_loop` reads from outside: the values of its
`millis()` calls in program order (in the `first_loop` block, in the 5000 ms
test, when stamping the check time, in the 1000 ms test, after a remount),
the results of the two `readOCR` calls, and the card as a mount would find
it. -/
structure LoopInputs where
  millis_first : Nat
  millis_check : Nat
  millis_stamp : Nat
  millis_remount : Nat
  millis_done : Nat
  readOCR_first : Bool
  readOCR_second : Bool
  sd : SdCard
deriving DecidableEq, Repr

/-- The `uint32_t` difference `(uint32_t)(now - since)`. -/
def elapsed_ms (now since : Nat) : Nat :=
  (now % 2 ^ 32 + 2 ^ 32 - since % 2 ^ 32) % 2 ^ 32

/-- Record one outside call. -/
def Firmware.call (fw : Firmware) (e : Effect) : Firmware :=
  { fw with effects := fw.effects ++ [e] }

/-- The statics before `zuluide_setup`: zero-initialised, the devices
constructed without an image, `first_loop` true. -/
def firmware_boot : Firmware :=
  { g_sdcard_present := false
    g_ide_cdrom := ⟨none⟩
    g_ide_zipdrive := ⟨none⟩
    g_ide_imagefile := ⟨none⟩
    g_ide_device := none
    sd_card_check_time := 0
    first_loop := true
    effects := [] }

/-- `mountSDCard()`. -/
def mountSDCard (fw : Firmware) (sd : SdCard) : Bool × Firmware :=
  let fw : Firmware := fw.call Effect.logfile_close
  let fw : Firmware := { fw with g_ide_cdrom := fw.g_ide_cdrom.set_image none }
  let fw : Firmware := { fw with g_ide_zipdrive := fw.g_ide_zipdrive.set_image none }
  if sd.begin_ok then
    (true, fw)
  else if ¬ sd.card_ok then
    (false, fw)
  else if sd.whole_card_ok then
    (true, fw)
  else
    (true, fw)

/-- `g_ide_device->set_image(image)` when `g_ide_device` is not null. -/
def set_image_of_device (fw : Firmware) (image : Option IDEImageRef) : Firmware :=
  match fw.g_ide_device with
  | none => fw
  | some IDEDeviceRef.g_ide_cdrom =>
    { fw with g_ide_cdrom := fw.g_ide_cdrom.set_image image }
  | some IDEDeviceRef.g_ide_zipdrive =>
    { fw with g_ide_zipdrive := fw.g_ide_zipdrive.set_image image }

/-- `load_image()`; `none` when a file name does not fit `imagefile`. -/
def load_image (MAX_FILE_PATH : Nat) (fw : Firmware) (sd : SdCard) : Option Firmware :=
  let fw : Firmware := { fw with g_ide_cdrom := fw.g_ide_cdrom.set_image none }
  let fw : Firmware := { fw with g_ide_zipdrive := fw.g_ide_zipdrive.set_image none }
  let fw : Firmware := { fw with g_ide_imagefile := ⟨none⟩ }
  match find_next_image MAX_FILE_PATH sd.root none [] MAX_FILE_PATH with
  | none => none
  | some (true, imagefile) =>
    let fw : Firmware := fw.call (Effect.logmsg "Loading image ")
    let fw : Firmware := { fw with g_ide_imagefile := ⟨some imagefile⟩ }
    let fw : Firmware := set_image_of_device fw (some IDEImageRef.g_ide_imagefile)
    some (fw.call (Effect.blinkStatus BLINK_STATUS_OK))
  | some (false, _) =>
    let fw : Firmware := fw.call (Effect.logmsg "No image files found")
    some (fw.call (Effect.blinkStatus BLINK_ERROR_NO_IMAGES))

/-- `zuluide_setup()`, from the statics `fw`. `ini_type` is the value of
`ini_getl("IDE", "type", 0, CONFIGFILE)`, `disable_led` that of
`ini_getbool("IDE", "DisableStatusLED", ...)`, `device_id` that of
`platform_get_device_id()`. -/
def zuluide_setup (MAX_FILE_PATH : Nat) (fw : Firmware) (sd : SdCard) (ini_type : Int)
    (disable_led : Bool) (device_id : Nat) : Option Firmware :=
  let fw : Firmware := fw.call Effect.platform_init
  let fw : Firmware := fw.call Effect.platform_late_init
  let r := mountSDCard fw sd
  let fw : Firmware := { r.2 with g_sdcard_present := r.1 }
  let fw :=
    if ¬ fw.g_sdcard_present then
      fw.call (Effect.logmsg "SD card init failed, sdErrorCode: ")
    else
      let fw : Firmware := if sd.no_clusters then fw.call (Effect.logmsg "SD card without filesystem!") else fw
      fw.call Effect.print_sd_info
  let fw :=
    if ini_type = 1 then
      { fw.call (Effect.logmsg "Device type: ZIP drive") with
        g_ide_device := some IDEDeviceRef.g_ide_zipdrive }
    else
      { fw.call (Effect.logmsg "Device type: CD-ROM") with
        g_ide_device := some IDEDeviceRef.g_ide_cdrom }
  let loaded : Option Firmware :=
    if fw.g_sdcard_present then
      (load_image MAX_FILE_PATH fw sd).map (fun fw =>
        let fw : Firmware := fw.call Effect.init_logfile
        if disable_led then fw.call Effect.platform_disable_led else fw)
    else
      some fw
  loaded.map (fun fw =>
    let fw :=
      if device_id = 1 then fw.call (Effect.ide_protocol_init none fw.g_ide_device)
      else fw.call (Effect.ide_protocol_init fw.g_ide_device none)
    fw.call (Effect.logmsg "Initialization complete!"))

/-- `zuluide_main_loop()`: one pass. The calls made before the hot-plug check
(`platform_reset_watchdog`, `platform_poll`, `blink_poll`, `save_logfile`,
`ide_protocol_poll`) are recorded; they act on state outside this model. -/
def zuluide_main_loop (MAX_FILE_PATH : Nat) (fw : Firmware) (inp : LoopInputs) :
    Option Firmware :=
  let fw :=
    if fw.first_loop then
      { fw with sd_card_check_time := (inp.millis_first + 1000) % 2 ^ 32 }
    else fw
  let fw : Firmware := fw.call Effect.platform_reset_watchdog
  let fw : Firmware := fw.call Effect.platform_poll
  let fw : Firmware := fw.call Effect.blink_poll
  let fw : Firmware := fw.call Effect.save_logfile
  let fw : Firmware := fw.call Effect.ide_protocol_poll
  let fw :=
    if fw.g_sdcard_present then
      if elapsed_ms inp.millis_check fw.sd_card_check_time > 5000 then
        let fw : Firmware := { fw with sd_card_check_time := inp.millis_stamp % 2 ^ 32 }
        if ¬ inp.readOCR_first then
          if ¬ inp.readOCR_second then
            let fw : Firmware := { fw with g_sdcard_present := false }
            let fw : Firmware := fw.call (Effect.logmsg "SD card removed, trying to reinit")
            let fw : Firmware := { fw with g_ide_cdrom := fw.g_ide_cdrom.set_image none }
            { fw with g_ide_imagefile := ⟨none⟩ }
          else fw
        else fw
      else fw
    else fw
  if ¬ fw.g_sdcard_present ∧ elapsed_ms inp.millis_remount fw.sd_card_check_time > 1000 then
    let r := mountSDCard fw inp.sd
    let fw : Firmware := { r.2 with g_sdcard_present := r.1 }
    let remounted : Option Firmware :=
      if fw.g_sdcard_present then
        let fw : Firmware := fw.call (Effect.logmsg "SD card reinit succeeded")
        let fw : Firmware := fw.call Effect.print_sd_info
        let fw : Firmware := fw.call Effect.init_logfile
        (load_image MAX_FILE_PATH fw inp.sd).map
          (fun fw => fw.call (Effect.blinkStatus BLINK_STATUS_OK))
      else
        some (fw.call (Effect.blinkStatus BLINK_ERROR_NO_SD_CARD))
    remounted.map (fun fw => { fw with sd_card_check_time := inp.millis_done % 2 ^ 32 })
  else
    some fw

/-- `g_ide_device->is_medium_present()`, `none` while `g_ide_device` is null. -/
def selected_medium_present (fw : Firmware) : Option Bool :=
  match fw.g_ide_device with
  | none => none
  | some IDEDeviceRef.g_ide_cdrom => some fw.g_ide_cdrom.is_medium_present
  | some IDEDeviceRef.g_ide_zipdrive => some fw.g_ide_zipdrive.is_medium_present

/-- An SD card with a FAT volume whose root directory is `sample_root`. -/
def sample_sd : SdCard :=
  { begin_ok := true
    card_ok := true
    whole_card_ok := false
    no_clusters := false
    root := some sample_root }

/-- A pass of the main loop in which the hot-plug check is due, both `readOCR`
calls fail, and no time passes between stamping the check time and the
remount test. -/
def removal_inputs : LoopInputs :=
  { millis_first := 10000
    millis_check := 10000
    millis_stamp := 10000
    millis_remount := 10000
    millis_done := 10000
    readOCR_first := false
    readOCR_second := false
    sd := { begin_ok := false, card_ok := false, whole_card_ok := false,
            no_clusters := false, root := none } }

/-! ## Reset and configuration byte -/

theorem phy_cfg_byte_eq (c : ide_phy_config_t) :
    phy_cfg_byte c =
      (if c.enable_dev0 then 1 else 0) + (if c.enable_dev1 then 2 else 0) +
      (if c.enable_dev1_zeros then 4 else 0) + (if c.atapi_dev0 then 8 else 0) +
      (if c.atapi_dev1 then 16 else 0) := by
  rcases c with ⟨a, b, c, d, e⟩
  cases a <;> cases b <;> cases c <;> cases d <;> cases e <;> rfl

theorem phy_cfg_byte_bits (c : ide_phy_config_t) :
    (phy_cfg_byte c).testBit 0 = c.enable_dev0 ∧
    (phy_cfg_byte c).testBit 1 = c.enable_dev1 ∧
    (phy_cfg_byte c).testBit 2 = c.enable_dev1_zeros ∧
    (phy_cfg_byte c).testBit 3 = c.atapi_dev0 ∧
    (phy_cfg_byte c).testBit 4 = c.atapi_dev1 ∧
    phy_cfg_byte c < 32 := by
  rcases c with ⟨a, b, c, d, e⟩
  cases a <;> cases b <;> cases c <;> cases d <;> cases e <;> decide

theorem phy_cfg_byte_injective (c1 c2 : ide_phy_config_t)
    (h : phy_cfg_byte c1 = phy_cfg_byte c2) : c1 = c2 := by
  have h1 := phy_cfg_byte_bits c1
  have h2 := phy_cfg_byte_bits c2
  rw [h] at h1
  rcases c1 with ⟨a1, b1, c1, d1, e1⟩
  rcases c2 with ⟨a2, b2, c2, d2, e2⟩
  simp only at h1 h2
  obtain ⟨p0, p1, p2, p3, p4, _⟩ := h1
  obtain ⟨q0, q1, q2, q3, q4, _⟩ := h2
  have ha : a1 = a2 := p0.symm.trans q0
  have hb : b1 = b2 := p1.symm.trans q1
  have hc : c1 = c2 := p2.symm.trans q2
  have hd : d1 = d2 := p3.symm.trans q3
  have he : e1 = e2 := p4.symm.trans q4
  subst ha hb hc hd he
  rfl

/-- C7: `ide_phy_reset` stores the configuration it is given, clears the
watchdog fault flag and sends exactly one `SET_IDE_PHY_CFG` command (after
`fpga_init`) whose byte has bit 0 = `enable_dev0`, bit 1 = `enable_dev1`,
bit 2 = `enable_dev1_zeros`, bit 3 = `atapi_dev0`, bit 4 = `atapi_dev1` and
bits 5..7 zero; two configurations with the same byte are equal, so
configurations differing in any flag give different bytes. -/
theorem ide_phy_reset_config_byte (m : Machine) (config : ide_phy_config_t) :
    (ide_phy_reset m config).phy.config = config ∧
    (ide_phy_reset m config).phy.watchdog_error = false ∧
    (ide_phy_reset m config).fpga.log =
      m.fpga.log ++ [FpgaCmd.FPGA_INIT, FpgaCmd.SET_IDE_PHY_CFG (phy_cfg_byte config)] ∧
    phy_cfg_byte config =
      (if config.enable_dev0 then 0x01 else 0) + (if config.enable_dev1 then 0x02 else 0) +
      (if config.enable_dev1_zeros then 0x04 else 0) + (if config.atapi_dev0 then 0x08 else 0) +
      (if config.atapi_dev1 then 0x10 else 0) ∧
    (phy_cfg_byte config).testBit 0 = config.enable_dev0 ∧
    (phy_cfg_byte config).testBit 1 = config.enable_dev1 ∧
    (phy_cfg_byte config).testBit 2 = config.enable_dev1_zeros ∧
    (phy_cfg_byte config).testBit 3 = config.atapi_dev0 ∧
    (phy_cfg_byte config).testBit 4 = config.atapi_dev1 ∧
    (∀ i, 5 ≤ i → (phy_cfg_byte config).testBit i = false) ∧
    (∀ other : ide_phy_config_t, other ≠ config → phy_cfg_byte other ≠ phy_cfg_byte config) := by
  obtain ⟨b0, b1, b2, b3, b4, hlt⟩ := phy_cfg_byte_bits config
  refine ⟨rfl, rfl, ?_, phy_cfg_byte_eq config, b0, b1, b2, b3, b4, ?_, ?_⟩
  · simp [ide_phy_reset, fpga_init, fpga_wrcmd]
  · intro i hi
    apply Nat.testBit_lt_two_pow
    calc phy_cfg_byte config < 2 ^ 5 := hlt
      _ ≤ 2 ^ i := Nat.pow_le_pow_right (by decide) hi
  · intro other hne heq
    exact hne (phy_cfg_byte_injective other config heq)

/-- Witness for C7 at the configuration "device 0 enabled, ATAPI": the byte
sent is 0x09 and the all-clear configuration gives another byte. -/
theorem ide_phy_reset_config_byte_witness :
    (ide_phy_reset (boot (fpga_with [] [] [] [])) ⟨true, false, false, true, false⟩).fpga.log =
      [FpgaCmd.FPGA_INIT, FpgaCmd.SET_IDE_PHY_CFG 0x09] ∧
    phy_cfg_byte ⟨false, false, false, false, false⟩ ≠ phy_cfg_byte ⟨true, false, false, true, false⟩ :=
  ⟨(ide_phy_reset_config_byte (boot (fpga_with [] [] [] [])) ⟨true, false, false, true, false⟩).2.2.1,
   (ide_phy_reset_config_byte (boot (fpga_with [] [] [] [])) ⟨true, false, false, true, false⟩).2.2.2.2.2.2.2.2.2.2
      ⟨false, false, false, false, false⟩ (by decide)⟩

/-! ## Event polling -/

/-- The event returned by a poll, as a function of the fault flag, the status
byte, the device-control register and the running flag. -/
theorem ide_phy_get_events_event (K : PhyConsts) (m : Machine) :
    (ide_phy_get_events K m).1 =
      if m.phy.watchdog_error = true then IDE_EVENT_HWRST
      else if next_status m &&& K.FPGA_STATUS_IDE_RST ≠ 0 then IDE_EVENT_HWRST
      else if next_status m &&& K.FPGA_STATUS_IDE_SRST ≠ 0 then
        (if next_device_control m &&& K.IDE_DEVCTRL_SRST = 0 then IDE_EVENT_SWRST
         else IDE_EVENT_NONE)
      else if next_status m &&& K.FPGA_STATUS_IDE_CMD ≠ 0 then IDE_EVENT_CMD
      else if m.phy.transfer_running = true then
        (if next_status m &&& K.FPGA_STATUS_DATA_DIR ≠ 0 then
          (if next_status m &&& K.FPGA_STATUS_TX_DONE ≠ 0 then IDE_EVENT_DATA_TRANSFER_DONE
           else IDE_EVENT_NONE)
         else
          (if next_status m &&& K.FPGA_STATUS_RX_DONE ≠ 0 then IDE_EVENT_DATA_TRANSFER_DONE
           else IDE_EVENT_NONE))
      else IDE_EVENT_NONE := by
  unfold ide_phy_get_events next_status next_device_control fpga_rdcmd_READ_STATUS
    fpga_rdcmd_READ_IDE_REGS
  dsimp only
  split_ifs <;> rfl

/-- C2: with no watchdog fault pending, the event returned by
`ide_phy_get_events` is that of the highest-priority flag in the status byte:
HWRST when IDE_RST is set; else the soft-reset outcome (SWRST once the
SRST bit of device-control has dropped, NONE while it is held) when the SRST
flag is set; else CMD when the CMD flag is set, whatever the done bits are;
else DATA_TRANSFER_DONE when a transfer is running and the done bit of its
direction (TX_DONE with DATA_DIR set, RX_DONE with it clear) is set; else
NONE. -/
theorem ide_phy_get_events_priority (K : PhyConsts) (m : Machine)
    (hw : m.phy.watchdog_error = false) :
    (next_status m &&& K.FPGA_STATUS_IDE_RST ≠ 0 →
      (ide_phy_get_events K m).1 = IDE_EVENT_HWRST) ∧
    (next_status m &&& K.FPGA_STATUS_IDE_RST = 0 →
      next_status m &&& K.FPGA_STATUS_IDE_SRST ≠ 0 →
      (ide_phy_get_events K m).1 =
        if next_device_control m &&& K.IDE_DEVCTRL_SRST = 0 then IDE_EVENT_SWRST
        else IDE_EVENT_NONE) ∧
    (next_status m &&& K.FPGA_STATUS_IDE_RST = 0 →
      next_status m &&& K.FPGA_STATUS_IDE_SRST = 0 →
      next_status m &&& K.FPGA_STATUS_IDE_CMD ≠ 0 →
      (ide_phy_get_events K m).1 = IDE_EVENT_CMD) ∧
    (next_status m &&& K.FPGA_STATUS_IDE_RST = 0 →
      next_status m &&& K.FPGA_STATUS_IDE_SRST = 0 →
      next_status m &&& K.FPGA_STATUS_IDE_CMD = 0 →
      m.phy.transfer_running = true →
      next_status m &&& K.FPGA_STATUS_DATA_DIR ≠ 0 →
      next_status m &&& K.FPGA_STATUS_TX_DONE ≠ 0 →
      (ide_phy_get_events K m).1 = IDE_EVENT_DATA_TRANSFER_DONE) ∧
    (next_status m &&& K.FPGA_STATUS_IDE_RST = 0 →
      next_status m &&& K.FPGA_STATUS_IDE_SRST = 0 →
      next_status m &&& K.FPGA_STATUS_IDE_CMD = 0 →
      m.phy.transfer_running = true →
      next_status m &&& K.FPGA_STATUS_DATA_DIR = 0 →
      next_status m &&& K.FPGA_STATUS_RX_DONE ≠ 0 →
      (ide_phy_get_events K m).1 = IDE_EVENT_DATA_TRANSFER_DONE) ∧
    (next_status m &&& K.FPGA_STATUS_IDE_RST = 0 →
      next_status m &&& K.FPGA_STATUS_IDE_SRST = 0 →
      next_status m &&& K.FPGA_STATUS_IDE_CMD = 0 →
      ¬ (m.phy.transfer_running = true ∧
          (if next_status m &&& K.FPGA_STATUS_DATA_DIR ≠ 0
            then next_status m &&& K.FPGA_STATUS_TX_DONE ≠ 0
            else next_status m &&& K.FPGA_STATUS_RX_DONE ≠ 0)) →
      (ide_phy_get_events K m).1 = IDE_EVENT_NONE) := by
  rw [ide_phy_get_events_event, hw]
  generalize next_status m = st
  generalize next_device_control m = dc
  refine ⟨?_, ?_, ?_, ?_, ?_, ?_⟩
  · intro h; simp [h]
  · intro h1 h2; simp [h1, h2]
  · intro h1 h2 h3; simp [h1, h2, h3]
  · intro h1 h2 h3 h4 h5 h6; simp [h1, h2, h3, h4, h5, h6]
  · intro h1 h2 h3 h4 h5 h6; simp [h1, h2, h3, h4, h5, h6]
  · intro h1 h2 h3 h4
    by_cases hr : m.phy.transfer_running = true
    · by_cases hd : st &&& K.FPGA_STATUS_DATA_DIR = 0
      · have : st &&& K.FPGA_STATUS_RX_DONE = 0 := by
          by_contra hx; exact h4 ⟨hr, by simp [hd, hx]⟩
        simp [h1, h2, h3, hr, hd, this]
      · have : st &&& K.FPGA_STATUS_TX_DONE = 0 := by
          by_contra hx; exact h4 ⟨hr, by simp [hd, hx]⟩
        simp [h1, h2, h3, hr, hd, this]
    · simp [h1, h2, h3, hr]

/-- Witness for C2: a running transfer whose TX_DONE bit is set together
with the CMD flag is reported as CMD. -/
theorem ide_phy_get_events_priority_witness :
    (ide_phy_get_events sample_consts
      { boot (fpga_with [0x25] [] [] []) with
        phy := { (boot (fpga_with [0x25] [] [] [])).phy with transfer_running := true } }).1
      = IDE_EVENT_CMD :=
  (ide_phy_get_events_priority sample_consts
      { boot (fpga_with [0x25] [] [] []) with
        phy := { (boot (fpga_with [0x25] [] [] [])).phy with transfer_running := true } }
      rfl).2.2.1 (by decide) (by decide) (by decide)

/-- A poll with a pending watchdog fault re-runs `ide_phy_reset` on the stored
configuration. -/
theorem ide_phy_get_events_watchdog (K : PhyConsts) (m : Machine)
    (hw : m.phy.watchdog_error = true) :
    ide_phy_get_events K m =
      (IDE_EVENT_HWRST,
       ide_phy_reset { m with fpga := (fpga_rdcmd_READ_STATUS m.fpga).2 } m.phy.config) := by
  unfold ide_phy_get_events
  dsimp only
  rw [if_pos hw]

/-- A poll that finds the soft-reset flag (and neither a fault nor IDE_RST)
reads the registers and acknowledges the flag only once SRST has dropped. -/
theorem ide_phy_get_events_srst (K : PhyConsts) (m : Machine)
    (hw : m.phy.watchdog_error = false)
    (hrst : next_status m &&& K.FPGA_STATUS_IDE_RST = 0)
    (hsrst : next_status m &&& K.FPGA_STATUS_IDE_SRST ≠ 0) :
    ide_phy_get_events K m =
      if next_device_control m &&& K.IDE_DEVCTRL_SRST = 0 then
        (IDE_EVENT_SWRST,
         { m with fpga :=
            { m.fpga with
              status := m.fpga.status.tail
              regs := m.fpga.regs.tail
              log := m.fpga.log ++ [FpgaCmd.READ_STATUS, FpgaCmd.READ_IDE_REGS,
                FpgaCmd.CLR_IRQ_FLAGS K.FPGA_STATUS_IDE_SRST] } })
      else
        (IDE_EVENT_NONE,
         { m with fpga :=
            { m.fpga with
              status := m.fpga.status.tail
              regs := m.fpga.regs.tail
              log := m.fpga.log ++ [FpgaCmd.READ_STATUS, FpgaCmd.READ_IDE_REGS] } }) := by
  unfold next_status at hrst hsrst
  unfold next_device_control
  unfold ide_phy_get_events fpga_rdcmd_READ_STATUS fpga_rdcmd_READ_IDE_REGS fpga_wrcmd
  dsimp only
  rw [if_neg (by simp [hw]), if_neg (by simpa using hrst), if_pos hsrst]
  split_ifs <;> simp

/-- The driver state after a poll: a pending fault is cleared, a reported
transfer-done clears the running flag, and nothing else changes. -/
theorem ide_phy_get_events_phy (K : PhyConsts) (m : Machine) :
    (ide_phy_get_events K m).2.phy =
      if m.phy.watchdog_error = true then { m.phy with watchdog_error := false }
      else if (ide_phy_get_events K m).1 = IDE_EVENT_DATA_TRANSFER_DONE then
        { m.phy with transfer_running := false }
      else m.phy := by
  rw [ide_phy_get_events_event]
  unfold ide_phy_get_events ide_phy_reset fpga_rdcmd_READ_STATUS fpga_rdcmd_READ_IDE_REGS
    next_status next_device_control
  dsimp only
  split_ifs <;> first | rfl | contradiction

/-- C10: with no fault pending and the soft-reset flag set without IDE_RST,
the poll returns SWRST exactly when the SRST bit of the device-control
register read back is clear, and only then sends CLR_IRQ_FLAGS for the
soft-reset flag; while SRST is held it returns NONE and sends no
CLR_IRQ_FLAGS, whatever the other status bits (CMD, done) are. The driver
state is left as it was in both cases. -/
theorem ide_phy_get_events_soft_reset (K : PhyConsts) (m : Machine)
    (hw : m.phy.watchdog_error = false)
    (hrst : next_status m &&& K.FPGA_STATUS_IDE_RST = 0)
    (hsrst : next_status m &&& K.FPGA_STATUS_IDE_SRST ≠ 0) :
    ((ide_phy_get_events K m).1 = IDE_EVENT_SWRST ↔
      next_device_control m &&& K.IDE_DEVCTRL_SRST = 0) ∧
    (next_device_control m &&& K.IDE_DEVCTRL_SRST = 0 →
      (ide_phy_get_events K m).2.fpga.log =
        m.fpga.log ++ [FpgaCmd.READ_STATUS, FpgaCmd.READ_IDE_REGS,
          FpgaCmd.CLR_IRQ_FLAGS K.FPGA_STATUS_IDE_SRST]) ∧
    (next_device_control m &&& K.IDE_DEVCTRL_SRST ≠ 0 →
      (ide_phy_get_events K m).1 = IDE_EVENT_NONE ∧
      (ide_phy_get_events K m).2.fpga.log =
        m.fpga.log ++ [FpgaCmd.READ_STATUS, FpgaCmd.READ_IDE_REGS]) ∧
    (ide_phy_get_events K m).2.phy = m.phy := by
  rw [ide_phy_get_events_srst K m hw hrst hsrst]
  by_cases hd : next_device_control m &&& K.IDE_DEVCTRL_SRST = 0
  · simp [hd]
  · simp [hd]

/-- Witness for C10: status 0x65 (soft-reset, CMD, TX_DONE and DATA_DIR
flags) with SRST still asserted in device-control gives NONE and no
CLR_IRQ_FLAGS, although a transfer is running. -/
theorem ide_phy_get_events_soft_reset_witness :
    (ide_phy_get_events sample_consts
      { boot (fpga_with [0x65] [0x04] [] []) with
        phy := { (boot (fpga_with [0x65] [0x04] [] [])).phy with transfer_running := true } }).1
      = IDE_EVENT_NONE ∧
    (ide_phy_get_events sample_consts
      { boot (fpga_with [0x65] [0x04] [] []) with
        phy := { (boot (fpga_with [0x65] [0x04] [] [])).phy with transfer_running := true } }).2.fpga.log
      = [FpgaCmd.READ_STATUS, FpgaCmd.READ_IDE_REGS] :=
  (ide_phy_get_events_soft_reset sample_consts
      { boot (fpga_with [0x65] [0x04] [] []) with
        phy := { (boot (fpga_with [0x65] [0x04] [] [])).phy with transfer_running := true } }
      rfl (by decide) (by decide)).2.2.1 (by decide)

/-! ## Watchdog recovery -/

/-- C3: `ide_phy_reset_from_watchdog` raises the fault flag, and a poll made
while the flag is raised returns HWRST whatever the status byte is, re-runs
`ide_phy_reset` on the stored configuration (configuration unchanged, the
same config byte sent again after `fpga_init`), changes nothing else in the
driver state and leaves the flag cleared; any later poll from that driver
state is decided by the status byte (and registers) alone, so it returns
HWRST only if IDE_RST is set. -/
theorem ide_phy_get_events_watchdog_absorbed (K : PhyConsts) (m : Machine)
    (hw : m.phy.watchdog_error = true) :
    (ide_phy_reset_from_watchdog m).phy.watchdog_error = true ∧
    (ide_phy_get_events K m).2 =
      ide_phy_reset { m with fpga := (fpga_rdcmd_READ_STATUS m.fpga).2 } m.phy.config ∧
    (ide_phy_get_events K m).1 = IDE_EVENT_HWRST ∧
    (ide_phy_get_events K m).2.phy.config = m.phy.config ∧
    (ide_phy_get_events K m).2.fpga.log =
      m.fpga.log ++ [FpgaCmd.READ_STATUS, FpgaCmd.FPGA_INIT,
        FpgaCmd.SET_IDE_PHY_CFG (phy_cfg_byte m.phy.config)] ∧
    (ide_phy_get_events K m).2.phy = { m.phy with watchdog_error := false } ∧
    (ide_phy_get_events K m).2.phy.watchdog_error = false ∧
    (∀ m2 : Machine, m2.phy = (ide_phy_get_events K m).2.phy →
      ((ide_phy_get_events K m2).1 = IDE_EVENT_HWRST ↔
        next_status m2 &&& K.FPGA_STATUS_IDE_RST ≠ 0) ∧
      ∃ sent : List FpgaCmd, (ide_phy_get_events K m2).2.fpga.log = m2.fpga.log ++ sent ∧
        FpgaCmd.FPGA_INIT ∉ sent ∧ ∀ c, FpgaCmd.SET_IDE_PHY_CFG c ∉ sent) := by
  have hphy : (ide_phy_get_events K m).2.phy = { m.phy with watchdog_error := false } := by
    rw [ide_phy_get_events_phy, if_pos hw]
  refine ⟨rfl, ?_, ?_, ?_, ?_, hphy, ?_, ?_⟩
  · rw [ide_phy_get_events_watchdog K m hw]
  · rw [ide_phy_get_events_watchdog K m hw]
  · rw [hphy]
  · rw [ide_phy_get_events_watchdog K m hw]
    simp [ide_phy_reset, fpga_init, fpga_wrcmd, fpga_rdcmd_READ_STATUS]
  · rw [hphy]
  · intro m2 h2
    have hw2 : m2.phy.watchdog_error = false := by rw [h2, hphy]
    constructor
    · rw [ide_phy_get_events_event, hw2]
      by_cases h : next_status m2 &&& K.FPGA_STATUS_IDE_RST = 0
      · simp [h]
        split_ifs <;> simp
      · simp [h]
    · unfold ide_phy_get_events fpga_rdcmd_READ_STATUS fpga_rdcmd_READ_IDE_REGS fpga_wrcmd
      dsimp only
      rw [if_neg (by simp [hw2])]
      split_ifs
      · exact ⟨[FpgaCmd.READ_STATUS, FpgaCmd.CLR_IRQ_FLAGS K.FPGA_STATUS_IDE_RST],
          by simp, by simp, by simp⟩
      · exact ⟨[FpgaCmd.READ_STATUS, FpgaCmd.READ_IDE_REGS,
          FpgaCmd.CLR_IRQ_FLAGS K.FPGA_STATUS_IDE_SRST], by simp, by simp, by simp⟩
      · exact ⟨[FpgaCmd.READ_STATUS, FpgaCmd.READ_IDE_REGS], by simp, by simp, by simp⟩
      · exact ⟨[FpgaCmd.READ_STATUS, FpgaCmd.CLR_IRQ_FLAGS K.FPGA_STATUS_IDE_CMD],
          by simp, by simp, by simp⟩
      all_goals exact ⟨[FpgaCmd.READ_STATUS], by simp, by simp, by simp⟩

/-- Witness for C3: after a reset with "device 0 enabled, ATAPI" and a
watchdog fault, a poll with an all-clear status byte returns HWRST and sends
the config byte 0x09 again. -/
theorem ide_phy_get_events_watchdog_absorbed_witness :
    (ide_phy_get_events sample_consts
      (ide_phy_reset_from_watchdog
        (ide_phy_reset (boot (fpga_with [0, 0] [] [] [])) ⟨true, false, false, true, false⟩))).1
      = IDE_EVENT_HWRST ∧
    (ide_phy_get_events sample_consts
      (ide_phy_reset_from_watchdog
        (ide_phy_reset (boot (fpga_with [0, 0] [] [] [])) ⟨true, false, false, true, false⟩))).2.fpga.log
      = [FpgaCmd.FPGA_INIT, FpgaCmd.SET_IDE_PHY_CFG 0x09] ++
        [FpgaCmd.READ_STATUS, FpgaCmd.FPGA_INIT, FpgaCmd.SET_IDE_PHY_CFG 0x09] :=
  ⟨(ide_phy_get_events_watchdog_absorbed sample_consts
      (ide_phy_reset_from_watchdog
        (ide_phy_reset (boot (fpga_with [0, 0] [] [] [])) ⟨true, false, false, true, false⟩))
      rfl).2.2.1,
   (ide_phy_get_events_watchdog_absorbed sample_consts
      (ide_phy_reset_from_watchdog
        (ide_phy_reset (boot (fpga_with [0, 0] [] [] [])) ⟨true, false, false, true, false⟩))
      rfl).2.2.2.2.1⟩

/-! ## Stopping transfers -/

/-- C4: `ide_phy_stop_transfers` can be called in any state and with or
without a result pointer. It sends START_WRITE 65535, clears
`transfer_running`, sets `udma_mode` to -1 and leaves the CRC counter and
both CRC slots alone; a second call right after the first sends the same
command again, leaves the driver state exactly as the first call left it, and
reports the same CRC error count. With a null pointer nothing is reported and
the effect on the machine is the same. -/
theorem ide_phy_stop_transfers_idempotent (m : Machine) (p1 p2 : Bool) :
    (ide_phy_stop_transfers (ide_phy_stop_transfers m p1).2 p2).2.phy =
      (ide_phy_stop_transfers m p1).2.phy ∧
    (ide_phy_stop_transfers m p1).2.phy =
      { m.phy with transfer_running := false, udma_mode := -1 } ∧
    (ide_phy_stop_transfers m p1).2.phy.crc_errors = m.phy.crc_errors ∧
    (ide_phy_stop_transfers m p1).2.phy.block_crc0 = m.phy.block_crc0 ∧
    (ide_phy_stop_transfers m p1).2.phy.block_crc1 = m.phy.block_crc1 ∧
    (ide_phy_stop_transfers m p1).2.fpga.log = m.fpga.log ++ [FpgaCmd.START_WRITE 65535] ∧
    (ide_phy_stop_transfers (ide_phy_stop_transfers m p1).2 p2).2.fpga.log =
      (ide_phy_stop_transfers m p1).2.fpga.log ++ [FpgaCmd.START_WRITE 65535] ∧
    (ide_phy_stop_transfers m true).1 = some m.phy.crc_errors ∧
    (ide_phy_stop_transfers (ide_phy_stop_transfers m p1).2 true).1 = some m.phy.crc_errors ∧
    (ide_phy_stop_transfers m false).1 = none ∧
    (ide_phy_stop_transfers m false).2 = (ide_phy_stop_transfers m true).2 := by
  refine ⟨rfl, rfl, rfl, rfl, rfl, rfl, rfl, rfl, rfl, rfl, rfl⟩

/-! ## CRC slots -/

theorem block_crc_valid_and (c : Nat) : (c % 65536 ||| BLOCK_CRC_VALID) &&& BLOCK_CRC_VALID ≠ 0 := by
  unfold BLOCK_CRC_VALID
  intro h
  have h1 : ((c % 65536 ||| 0x10000) &&& 0x10000).testBit 16 = true := by
    rw [Nat.testBit_and, Nat.testBit_or]
    have : (0x10000 : Nat).testBit 16 = true := by decide
    simp [this]
  rw [h] at h1
  simp at h1

theorem block_crc_valid_mod (c : Nat) : (c % 65536 ||| BLOCK_CRC_VALID) % 65536 = c % 65536 := by
  unfold BLOCK_CRC_VALID
  apply Nat.eq_of_testBit_eq
  intro i
  have e : (65536 : Nat) = 2 ^ 16 := by norm_num
  rw [e, Nat.testBit_mod_two_pow, Nat.testBit_mod_two_pow, Nat.testBit_or,
    Nat.testBit_mod_two_pow, Nat.testBit_two_pow]
  by_cases hi : i < 16
  · have : ¬ (16 = i) := by omega
    simp [hi, this]
  · simp [hi]

/-- The whole effect of `verify_crc` on a slot. -/
theorem verify_crc_eq (m : Machine) (s : CrcSlot) :
    verify_crc m s =
      { phy := s.set
          { m.phy with crc_errors := m.phy.crc_errors +
              (if crc_mismatch (s.get m.phy) (m.fpga.udma_crc.headD 0) then 1 else 0) } 0
        fpga := { m.fpga with
          udma_crc := m.fpga.udma_crc.tail
          log := m.fpga.log ++ [FpgaCmd.READ_UDMA_CRC] }
        msgs := m.msgs ++
          (if crc_mismatch (s.get m.phy) (m.fpga.udma_crc.headD 0)
            then [(s.get m.phy % 65536, m.fpga.udma_crc.headD 0 % 65536)] else []) } := by
  unfold verify_crc crc_mismatch fpga_rdcmd_READ_UDMA_CRC
  dsimp only
  generalize m.fpga.udma_crc.headD 0 = host
  by_cases hv : s.get m.phy &&& BLOCK_CRC_VALID = 0
  · simp [hv]
  · by_cases hx : s.get m.phy % 65536 = host % 65536
    · simp [hv, hx]
    · simp [hv, hx]

theorem crc_mismatch_valid (c host : Nat) :
    crc_mismatch (c % 65536 ||| BLOCK_CRC_VALID) host = decide (c % 65536 ≠ host % 65536) := by
  unfold crc_mismatch
  rw [block_crc_valid_mod]
  simp [block_crc_valid_and c]

theorem crc_mismatch_empty (host : Nat) : crc_mismatch 0 host = false := by
  simp [crc_mismatch]

/-- `ide_phy_write_block` in UltraDMA mode with a CRC held in slot 1: slot 1 is
checked first, then slot 0 moves to slot 1 and the new CRC enters slot 0. -/
theorem ide_phy_write_block_verify (m : Machine) (buf : List Nat) (blocklen : Nat)
    (hu : 0 ≤ m.phy.udma_mode) (hv : m.phy.block_crc1 &&& BLOCK_CRC_VALID ≠ 0) :
    ide_phy_write_block m buf blocklen =
      { phy := { m.phy with
          crc_errors := m.phy.crc_errors +
            (if crc_mismatch m.phy.block_crc1 (m.fpga.udma_crc.headD 0) then 1 else 0)
          transfer_running := true
          block_crc1 := m.phy.block_crc0
          block_crc0 := m.fpga.databuf_crc.headD 0 % 65536 ||| BLOCK_CRC_VALID }
        fpga := { m.fpga with
          udma_crc := m.fpga.udma_crc.tail
          databuf_crc := m.fpga.databuf_crc.tail
          log := m.fpga.log ++ [FpgaCmd.READ_UDMA_CRC, FpgaCmd.WRITE_DATABUF buf blocklen] }
        msgs := m.msgs ++
          (if crc_mismatch m.phy.block_crc1 (m.fpga.udma_crc.headD 0)
            then [(m.phy.block_crc1 % 65536, m.fpga.udma_crc.headD 0 % 65536)] else []) } := by
  unfold ide_phy_write_block
  rw [if_pos ⟨hu, hv⟩, verify_crc_eq]
  simp [fpga_wrcmd_WRITE_DATABUF, CrcSlot.set, CrcSlot.get]

/-- `ide_phy_write_block` in PIO mode, or with slot 1 empty: no CRC is read
or checked. -/
theorem ide_phy_write_block_plain (m : Machine) (buf : List Nat) (blocklen : Nat)
    (h : ¬ (0 ≤ m.phy.udma_mode ∧ m.phy.block_crc1 &&& BLOCK_CRC_VALID ≠ 0)) :
    ide_phy_write_block m buf blocklen =
      { phy := { m.phy with
          transfer_running := true
          block_crc1 := m.phy.block_crc0
          block_crc0 := m.fpga.databuf_crc.headD 0 % 65536 ||| BLOCK_CRC_VALID }
        fpga := { m.fpga with
          databuf_crc := m.fpga.databuf_crc.tail
          log := m.fpga.log ++ [FpgaCmd.WRITE_DATABUF buf blocklen] }
        msgs := m.msgs } := by
  unfold ide_phy_write_block
  rw [if_neg h]
  simp [fpga_wrcmd_WRITE_DATABUF]

/-- `ide_phy_is_write_finished` in UltraDMA mode, when the status byte says
the transfer is over: slot 1 is checked, then slot 0, and both are emptied. -/
theorem ide_phy_is_write_finished_udma (K : PhyConsts) (m : Machine)
    (hu : 0 ≤ m.phy.udma_mode) (hs : write_finished_status K (next_status m)) :
    ide_phy_is_write_finished K m =
      (true,
       { phy := { m.phy with
          crc_errors := m.phy.crc_errors +
            (if crc_mismatch m.phy.block_crc1 (m.fpga.udma_crc.headD 0) then 1 else 0) +
            (if crc_mismatch m.phy.block_crc0 (m.fpga.udma_crc.tail.headD 0) then 1 else 0)
          transfer_running := false
          block_crc1 := 0
          block_crc0 := 0 }
         fpga := { m.fpga with
          status := m.fpga.status.tail
          udma_crc := m.fpga.udma_crc.tail.tail
          log := m.fpga.log ++
            [FpgaCmd.READ_STATUS, FpgaCmd.READ_UDMA_CRC, FpgaCmd.READ_UDMA_CRC] }
         msgs := m.msgs ++
          (if crc_mismatch m.phy.block_crc1 (m.fpga.udma_crc.headD 0)
            then [(m.phy.block_crc1 % 65536, m.fpga.udma_crc.headD 0 % 65536)] else []) ++
          (if crc_mismatch m.phy.block_crc0 (m.fpga.udma_crc.tail.headD 0)
            then [(m.phy.block_crc0 % 65536, m.fpga.udma_crc.tail.headD 0 % 65536)] else []) }) := by
  unfold write_finished_status next_status at hs
  unfold ide_phy_is_write_finished fpga_rdcmd_READ_STATUS
  dsimp only
  rw [if_pos hs, if_pos hu, verify_crc_eq, verify_crc_eq]
  simp [CrcSlot.set, CrcSlot.get]

/-- `ide_phy_is_write_finished` in PIO mode, when the status byte says the
transfer is over: only the status is read. -/
theorem ide_phy_is_write_finished_pio (K : PhyConsts) (m : Machine)
    (hu : m.phy.udma_mode < 0) (hs : write_finished_status K (next_status m)) :
    ide_phy_is_write_finished K m =
      (true,
       { phy := { m.phy with transfer_running := false }
         fpga := { m.fpga with
          status := m.fpga.status.tail
          log := m.fpga.log ++ [FpgaCmd.READ_STATUS] }
         msgs := m.msgs }) := by
  unfold write_finished_status next_status at hs
  unfold ide_phy_is_write_finished fpga_rdcmd_READ_STATUS
  dsimp only
  rw [if_pos hs, if_neg (by omega)]

/-- `ide_phy_is_write_finished` while the status byte says the transfer is
still going on: only the status is read. -/
theorem ide_phy_is_write_finished_busy (K : PhyConsts) (m : Machine)
    (hs : ¬ write_finished_status K (next_status m)) :
    ide_phy_is_write_finished K m =
      (false,
       { m with fpga := { m.fpga with
          status := m.fpga.status.tail
          log := m.fpga.log ++ [FpgaCmd.READ_STATUS] } }) := by
  unfold write_finished_status next_status at hs
  unfold ide_phy_is_write_finished fpga_rdcmd_READ_STATUS
  dsimp only
  rw [if_neg hs]

/-! ## Starting a write -/

/-- `ide_phy_start_write` on an even block length passes its assertion. -/
theorem ide_phy_start_write_even (m : Machine) (blocklen : Nat) (udma_mode : Int)
    (heven : blocklen % 2 = 0) :
    ide_phy_start_write m blocklen udma_mode =
      some
        { phy := { m.phy with
            crc_errors := 0
            block_crc0 := 0
            block_crc1 := 0
            udma_mode := if udma_mode < 0 then -1 else udma_mode }
          fpga := { m.fpga with
            log := m.fpga.log ++
              [if udma_mode < 0 then FpgaCmd.START_WRITE (last_word_idx blocklen)
               else FpgaCmd.START_UDMA_WRITE
                [(udma_mode % 256).toNat, last_word_idx blocklen % 256,
                  (last_word_idx blocklen >>> 8) % 256]] }
          msgs := m.msgs } := by
  have h1 : blocklen % 2 ^ 32 &&& 1 = 0 := by
    rw [Nat.and_one_is_mod]
    omega
  unfold ide_phy_start_write fpga_wrcmd
  dsimp only
  rw [if_neg (fun h => h h1)]
  by_cases hm : udma_mode < 0
  · simp [hm]
  · simp [hm]

/-- In PIO mode a data-phase call reads no CRC, logs no warning and leaves
the mode and the counter alone. -/
theorem pio_write_phase_step (K : PhyConsts) (m : Machine) (op : PhyOp)
    (hu : m.phy.udma_mode < 0) (hop : op.is_write_phase = true) :
    ∃ m1 sent, step K m op = some m1 ∧ m1.phy.udma_mode = m.phy.udma_mode ∧
      m1.phy.crc_errors = m.phy.crc_errors ∧ m1.msgs = m.msgs ∧
      m1.fpga.udma_crc = m.fpga.udma_crc ∧ m1.fpga.log = m.fpga.log ++ sent ∧
      FpgaCmd.READ_UDMA_CRC ∉ sent := by
  cases op <;> simp [PhyOp.is_write_phase] at hop
  case write_block buf blocklen =>
    refine ⟨_, [FpgaCmd.WRITE_DATABUF buf blocklen], rfl, ?_⟩
    rw [ide_phy_write_block_plain m buf blocklen (by omega)]
    simp
  case is_write_finished =>
    refine ⟨_, [FpgaCmd.READ_STATUS], rfl, ?_⟩
    by_cases hs : write_finished_status K (next_status m)
    · rw [ide_phy_is_write_finished_pio K m hu hs]
      simp
    · rw [ide_phy_is_write_finished_busy K m hs]
      simp

theorem pio_write_phase_run (K : PhyConsts) (calls : List PhyOp) :
    ∀ m : Machine, m.phy.udma_mode < 0 → (∀ op ∈ calls, op.is_write_phase = true) →
    ∃ m2 sent, run K m calls = some m2 ∧ m2.phy.udma_mode = m.phy.udma_mode ∧
      m2.phy.crc_errors = m.phy.crc_errors ∧ m2.msgs = m.msgs ∧
      m2.fpga.udma_crc = m.fpga.udma_crc ∧ m2.fpga.log = m.fpga.log ++ sent ∧
      FpgaCmd.READ_UDMA_CRC ∉ sent := by
  induction calls with
  | nil =>
    intro m _ _
    exact ⟨m, [], rfl, rfl, rfl, rfl, rfl, by simp, by simp⟩
  | cons op ops ih =>
    intro m hu hops
    obtain ⟨m1, sent1, hs1, hu1, hc1, hm1, hq1, hl1, hn1⟩ :=
      pio_write_phase_step K m op hu (hops op (by simp))
    obtain ⟨m2, sent2, hs2, hu2, hc2, hm2, hq2, hl2, hn2⟩ :=
      ih m1 (by rw [hu1]; exact hu) (fun o ho => hops o (by simp [ho]))
    refine ⟨m2, sent1 ++ sent2, ?_, ?_, ?_, ?_, ?_, ?_, ?_⟩
    · simp [run, hs1, hs2]
    · rw [hu2, hu1]
    · rw [hc2, hc1]
    · rw [hm2, hm1]
    · rw [hq2, hq1]
    · rw [hl2, hl1, List.append_assoc]
    · simp [hn1, hn2]

/-- C6: on an even block length `ide_phy_start_write` passes its assertion
and selects PIO exactly when `udma_mode < 0` (it sends START_WRITE and
records mode -1) and UltraDMA exactly when `udma_mode >= 0` (it sends
START_UDMA_WRITE whose first byte is the mode cast to `uint8_t`, the mode
itself whenever it is below 256, and records the mode). After a PIO start,
any sequence of `ide_phy_write_block` and `ide_phy_is_write_finished` calls
runs without sending READ_UDMA_CRC, without consuming a host CRC or logging a
mismatch, and leaves the CRC-error counter at 0, whatever the chip answers. -/
theorem ide_phy_start_write_selects_mode (K : PhyConsts) (m : Machine) (blocklen : Nat)
    (udma_mode : Int) (heven : blocklen % 2 = 0) :
    ∃ m1, ide_phy_start_write m blocklen udma_mode = some m1 ∧
      m1.fpga.log = m.fpga.log ++
        [if udma_mode < 0 then FpgaCmd.START_WRITE (last_word_idx blocklen)
         else FpgaCmd.START_UDMA_WRITE
          [(udma_mode % 256).toNat, last_word_idx blocklen % 256,
            (last_word_idx blocklen >>> 8) % 256]] ∧
      m1.phy.udma_mode = (if udma_mode < 0 then -1 else udma_mode) ∧
      (0 ≤ udma_mode → udma_mode < 256 → ((udma_mode % 256).toNat : Int) = udma_mode) ∧
      m1.phy.crc_errors = 0 ∧
      (udma_mode < 0 → ∀ calls : List PhyOp, (∀ op ∈ calls, op.is_write_phase = true) →
        ∃ m2 sent, run K m1 calls = some m2 ∧ m2.phy.crc_errors = 0 ∧
          m2.fpga.log = m1.fpga.log ++ sent ∧ FpgaCmd.READ_UDMA_CRC ∉ sent ∧
          m2.fpga.udma_crc = m.fpga.udma_crc ∧ m2.msgs = m.msgs) := by
  have hsw := ide_phy_start_write_even m blocklen udma_mode heven
  obtain ⟨m1, hm1⟩ : ∃ m1, ide_phy_start_write m blocklen udma_mode = some m1 := ⟨_, hsw⟩
  have heq := Option.some.inj (hm1.symm.trans hsw)
  have hmode : m1.phy.udma_mode = (if udma_mode < 0 then -1 else udma_mode) := by rw [heq]
  have hq1 : m1.fpga.udma_crc = m.fpga.udma_crc := by rw [heq]
  have hmsg1 : m1.msgs = m.msgs := by rw [heq]
  have hc1 : m1.phy.crc_errors = 0 := by rw [heq]
  refine ⟨m1, hm1, by rw [heq], hmode, ?_, hc1, ?_⟩
  · intro h0 h1
    omega
  · intro hneg calls hcalls
    obtain ⟨m2, sent, hs, _, hc, hm, hq, hl, hn⟩ :=
      pio_write_phase_run K calls m1 (by rw [hmode, if_pos hneg]; omega) hcalls
    exact ⟨m2, sent, hs, hc.trans hc1, hl, hn, hq.trans hq1, hm.trans hmsg1⟩

/-- Witness for C6: a PIO start with 512-byte blocks sends START_WRITE 255,
and a block write followed by the finishing call leaves the counter at 0
although the chip holds a host CRC (0xBEEF) that matches nothing. -/
theorem ide_phy_start_write_selects_mode_witness :
    512 % 2 = 0 ∧
    ∃ m1, ide_phy_start_write (boot (fpga_with [0x04] [] [0xBEEF] [0x1234])) 512 (-1) = some m1 ∧
      m1.fpga.log = [FpgaCmd.START_WRITE 255] ∧
      ∃ m2, run sample_consts m1 [PhyOp.write_block [1, 2] 512, PhyOp.is_write_finished] = some m2 ∧
        m2.phy.crc_errors = 0 ∧ m2.fpga.udma_crc = [0xBEEF] := by
  obtain ⟨m1, h1, hlog, _, _, _, h6⟩ :=
    ide_phy_start_write_selects_mode sample_consts
      (boot (fpga_with [0x04] [] [0xBEEF] [0x1234])) 512 (-1) (by decide)
  obtain ⟨m2, sent, hr, hc, _, _, hq, _⟩ :=
    h6 (by decide) [PhyOp.write_block [1, 2] 512, PhyOp.is_write_finished] (by decide)
  exact ⟨by decide, m1, h1, hlog, m2, hr, hc, hq⟩

/-! ## UltraDMA write transfers -/

theorem write_blocks_cons (m : Machine) (blocklen : Nat) (buf : List Nat)
    (bufs : List (List Nat)) :
    write_blocks m blocklen (buf :: bufs) =
      write_blocks (ide_phy_write_block m buf blocklen) blocklen bufs := rfl

theorem crc_mismatches_map (blocks : List Block) (rest : List Nat) :
    crc_mismatches (blocks.map Block.crc) (blocks.map Block.host ++ rest) =
      (blocks.filter (fun b => decide (b.crc % 65536 ≠ b.host % 65536))).length := by
  induction blocks with
  | nil => rfl
  | cons b bs ih =>
    simp only [List.map_cons, List.cons_append, crc_mismatches, List.headD_cons, List.tail_cons,
      ih, List.filter_cons]
    by_cases h : b.crc % 65536 = b.host % 65536
    · simp [h]
    · simp [h]; omega

/-- From a state with both slots holding CRCs `a` (slot 1, older) and `b`
(slot 0), writing further blocks and finishing checks `a`, `b` and every
later block's CRC, in order, each against the next READ_UDMA_CRC answer. -/
theorem udma_finish_two_pending (K : PhyConsts) (blocklen : Nat) (bufs : List (List Nat)) :
    ∀ (cs : List Nat) (m : Machine) (a b : Nat) (rest : List Nat),
    cs.length = bufs.length → 0 ≤ m.phy.udma_mode →
    m.phy.block_crc1 = a % 65536 ||| BLOCK_CRC_VALID →
    m.phy.block_crc0 = b % 65536 ||| BLOCK_CRC_VALID →
    m.fpga.databuf_crc = cs ++ rest →
    write_finished_status K (next_status m) →
    (ide_phy_is_write_finished K (write_blocks m blocklen bufs)).1 = true ∧
    (ide_phy_is_write_finished K (write_blocks m blocklen bufs)).2.phy.crc_errors =
      m.phy.crc_errors + (crc_mismatches (a :: b :: cs) m.fpga.udma_crc : Nat) ∧
    (ide_phy_is_write_finished K (write_blocks m blocklen bufs)).2.phy.block_crc0 = 0 ∧
    (ide_phy_is_write_finished K (write_blocks m blocklen bufs)).2.phy.block_crc1 = 0 ∧
    (ide_phy_is_write_finished K (write_blocks m blocklen bufs)).2.fpga.udma_crc =
      m.fpga.udma_crc.drop (cs.length + 2) := by
  induction bufs with
  | nil =>
    intro cs m a b rest hlen hu h1 h0 _ hs
    have hcs : cs = [] := List.length_eq_zero.mp hlen
    subst hcs
    rw [show write_blocks m blocklen [] = m from rfl, ide_phy_is_write_finished_udma K m hu hs]
    refine ⟨rfl, ?_, rfl, rfl, ?_⟩
    · show m.phy.crc_errors +
          (if crc_mismatch m.phy.block_crc1 (m.fpga.udma_crc.headD 0) then 1 else 0) +
          (if crc_mismatch m.phy.block_crc0 (m.fpga.udma_crc.tail.headD 0) then 1 else 0) = _
      rw [h1, h0, crc_mismatch_valid, crc_mismatch_valid]
      simp only [crc_mismatches]
      generalize m.fpga.udma_crc.headD 0 = x
      generalize m.fpga.udma_crc.tail.headD 0 = y
      by_cases ha : a % 65536 = x % 65536
      · by_cases hb : b % 65536 = y % 65536
        · simp [ha, hb]
        · simp [ha, hb]
      · by_cases hb : b % 65536 = y % 65536
        · simp [ha, hb]
        · simp [ha, hb]; omega
    · show m.fpga.udma_crc.tail.tail = _
      simp [List.drop_drop, ← List.drop_one]
  | cons buf bufs ih =>
    intro cs m a b rest hlen hu h1 h0 hq hs
    cases cs with
    | nil => simp at hlen
    | cons c cs =>
      have hv : m.phy.block_crc1 &&& BLOCK_CRC_VALID ≠ 0 := by
        rw [h1]; exact block_crc_valid_and a
      have e := ide_phy_write_block_verify m buf blocklen hu hv
      have hlen2 : cs.length = bufs.length := by simpa using hlen
      rw [write_blocks_cons]
      generalize ide_phy_write_block m buf blocklen = m1 at e ⊢
      have f_u : m1.phy.udma_mode = m.phy.udma_mode := by rw [e]
      have f_1 : m1.phy.block_crc1 = b % 65536 ||| BLOCK_CRC_VALID := by rw [e]; exact h0
      have f_0 : m1.phy.block_crc0 = c % 65536 ||| BLOCK_CRC_VALID := by
        rw [e]; show m.fpga.databuf_crc.headD 0 % 65536 ||| BLOCK_CRC_VALID = _
        rw [hq]; rfl
      have f_q : m1.fpga.databuf_crc = cs ++ rest := by
        rw [e]; show m.fpga.databuf_crc.tail = _
        rw [hq]; rfl
      have f_s : next_status m1 = next_status m := by rw [e]; rfl
      have f_h : m1.fpga.udma_crc = m.fpga.udma_crc.tail := by rw [e]
      have f_e : m1.phy.crc_errors = m.phy.crc_errors +
          (if crc_mismatch m.phy.block_crc1 (m.fpga.udma_crc.headD 0) then 1 else 0) := by
        rw [e]
      obtain ⟨r1, r2, r3, r4, r5⟩ := ih cs m1 b c rest hlen2 (by rw [f_u]; exact hu) f_1 f_0 f_q
        (by rw [f_s]; exact hs)
      refine ⟨r1, ?_, r3, r4, ?_⟩
      · rw [r2, f_e, f_h, h1, crc_mismatch_valid]
        simp only [crc_mismatches]
        generalize m.fpga.udma_crc.headD 0 = x
        by_cases ha : a % 65536 = x % 65536
        · simp [ha]
        · simp [ha]; omega
      · rw [r5, f_h]
        simp only [List.length_cons, ← List.drop_one, List.drop_drop]
        congr 1
        omega

/-- C1: take any machine, an even block length, an UltraDMA mode `>= 0` and
`n >= 1` blocks, where the chip calculates CRC `crc` for each block and
reports the host's CRC `host` for it (one READ_UDMA_CRC answer per block, in
order, preceded in a one-block transfer by the answer for the empty second
buffer). Then `ide_phy_start_write`, the `n` calls of `ide_phy_write_block`
and an `ide_phy_is_write_finished` call whose status byte says the transfer
is over succeed, the last call returns true, and the CRC-error counter ends
equal to the number of blocks whose 16-bit CRC differs from the host's: 0
when all agree, and never more than `n`. Every host CRC has been consumed and
both slots are empty. -/
theorem udma_write_crc_errors (K : PhyConsts) (m : Machine) (blocklen : Nat) (udma_mode : Int)
    (blocks : List Block) (junk : Nat) (rest_crc rest_host : List Nat)
    (heven : blocklen % 2 = 0) (hmode : 0 ≤ udma_mode) (hn : 1 ≤ blocks.length)
    (hcrc : m.fpga.databuf_crc = blocks.map Block.crc ++ rest_crc)
    (hhost : m.fpga.udma_crc = udma_crc_answers blocks junk ++ rest_host)
    (hfin : write_finished_status K (next_status m)) :
    ∃ m1, ide_phy_start_write m blocklen udma_mode = some m1 ∧
      (ide_phy_is_write_finished K (write_blocks m1 blocklen (blocks.map Block.buf))).1 = true ∧
      (ide_phy_is_write_finished K (write_blocks m1 blocklen (blocks.map Block.buf))).2.phy.crc_errors
        = ((blocks.filter (fun b => decide (b.crc % 65536 ≠ b.host % 65536))).length : Int) ∧
      ((∀ b ∈ blocks, b.crc % 65536 = b.host % 65536) →
        (ide_phy_is_write_finished K
          (write_blocks m1 blocklen (blocks.map Block.buf))).2.phy.crc_errors = 0) ∧
      (ide_phy_is_write_finished K
        (write_blocks m1 blocklen (blocks.map Block.buf))).2.fpga.udma_crc = rest_host ∧
      (ide_phy_is_write_finished K
        (write_blocks m1 blocklen (blocks.map Block.buf))).2.phy.block_crc0 = 0 ∧
      (ide_phy_is_write_finished K
        (write_blocks m1 blocklen (blocks.map Block.buf))).2.phy.block_crc1 = 0 ∧
      (ide_phy_is_write_finished K
        (write_blocks m1 blocklen (blocks.map Block.buf))).2.phy.crc_errors
        ≤ (blocks.length : Int) := by
  have hsw := ide_phy_start_write_even m blocklen udma_mode heven
  obtain ⟨m1, hm1⟩ : ∃ m1, ide_phy_start_write m blocklen udma_mode = some m1 := ⟨_, hsw⟩
  have heq := Option.some.inj (hm1.symm.trans hsw)
  have g_u : m1.phy.udma_mode = udma_mode := by
    rw [heq]; show (if udma_mode < 0 then (-1 : Int) else udma_mode) = udma_mode
    rw [if_neg (by omega)]
  have g_e : m1.phy.crc_errors = 0 := by rw [heq]
  have g_0 : m1.phy.block_crc0 = 0 := by rw [heq]
  have g_1 : m1.phy.block_crc1 = 0 := by rw [heq]
  have g_q : m1.fpga.databuf_crc = m.fpga.databuf_crc := by rw [heq]
  have g_h : m1.fpga.udma_crc = m.fpga.udma_crc := by rw [heq]
  have g_s : next_status m1 = next_status m := by rw [heq]; rfl
  clear heq hsw
  have hzero : (0 : Nat) &&& BLOCK_CRC_VALID = 0 := by decide
  suffices hmain :
      (ide_phy_is_write_finished K (write_blocks m1 blocklen (blocks.map Block.buf))).1 = true ∧
      (ide_phy_is_write_finished K (write_blocks m1 blocklen (blocks.map Block.buf))).2.phy.crc_errors
        = ((blocks.filter (fun b => decide (b.crc % 65536 ≠ b.host % 65536))).length : Int) ∧
      (ide_phy_is_write_finished K
        (write_blocks m1 blocklen (blocks.map Block.buf))).2.fpga.udma_crc = rest_host ∧
      (ide_phy_is_write_finished K
        (write_blocks m1 blocklen (blocks.map Block.buf))).2.phy.block_crc0 = 0 ∧
      (ide_phy_is_write_finished K
        (write_blocks m1 blocklen (blocks.map Block.buf))).2.phy.block_crc1 = 0 by
    obtain ⟨a1, a2, a3, a4, a5⟩ := hmain
    refine ⟨m1, hm1, a1, a2, ?_, a3, a4, a5, ?_⟩
    · intro hall
      rw [a2]
      have : blocks.filter (fun b => decide (b.crc % 65536 ≠ b.host % 65536)) = [] := by
        rw [List.filter_eq_nil_iff]
        intro b hb
        simp [hall b hb]
      rw [this]; rfl
    · rw [a2]
      exact_mod_cast List.length_filter_le _ blocks
  -- the first block enters slot 0 unchecked
  cases blocks with
  | nil => simp at hn
  | cons b1 bs =>
    have e2 := ide_phy_write_block_plain m1 b1.buf blocklen
      (by rw [g_1]; exact fun h => h.2 hzero)
    rw [List.map_cons, write_blocks_cons]
    generalize ide_phy_write_block m1 b1.buf blocklen = m2 at e2 ⊢
    have k_u : m2.phy.udma_mode = udma_mode := by rw [e2]; exact g_u
    have k_e : m2.phy.crc_errors = 0 := by rw [e2]; exact g_e
    have k_0 : m2.phy.block_crc0 = b1.crc % 65536 ||| BLOCK_CRC_VALID := by
      rw [e2]; show m1.fpga.databuf_crc.headD 0 % 65536 ||| BLOCK_CRC_VALID = _
      rw [g_q, hcrc]; rfl
    have k_1 : m2.phy.block_crc1 = 0 := by rw [e2]; exact g_0
    have k_q : m2.fpga.databuf_crc = bs.map Block.crc ++ rest_crc := by
      rw [e2]; show m1.fpga.databuf_crc.tail = _
      rw [g_q, hcrc]; rfl
    have k_h : m2.fpga.udma_crc = m.fpga.udma_crc := by rw [e2]; exact g_h
    have k_s : next_status m2 = next_status m := by rw [e2]; exact g_s
    clear e2
    cases bs with
    | nil =>
      -- one block: the finishing call reads twice and checks the second answer
      have hq : m2.fpga.udma_crc = junk :: b1.host :: rest_host := by
        rw [k_h, hhost]; rfl
      rw [show write_blocks m2 blocklen (List.map Block.buf []) = m2 from rfl,
        ide_phy_is_write_finished_udma K m2 (by rw [k_u]; exact hmode) (by rw [k_s]; exact hfin)]
      refine ⟨rfl, ?_, ?_, rfl, rfl⟩
      · show m2.phy.crc_errors +
            (if crc_mismatch m2.phy.block_crc1 (m2.fpga.udma_crc.headD 0) then 1 else 0) +
            (if crc_mismatch m2.phy.block_crc0 (m2.fpga.udma_crc.tail.headD 0) then 1 else 0) = _
        rw [k_e, k_1, k_0, hq, crc_mismatch_empty, crc_mismatch_valid]
        by_cases h : b1.crc % 65536 = b1.host % 65536
        · simp [h]
        · simp [h]
      · show m2.fpga.udma_crc.tail.tail = _
        rw [hq]; rfl
    | cons b2 bs =>
      -- two or more blocks: the second block also enters unchecked
      have e3 := ide_phy_write_block_plain m2 b2.buf blocklen
        (by rw [k_1]; exact fun h => h.2 hzero)
      rw [List.map_cons, write_blocks_cons]
      generalize ide_phy_write_block m2 b2.buf blocklen = m3 at e3 ⊢
      have l_u : m3.phy.udma_mode = udma_mode := by rw [e3]; exact k_u
      have l_e : m3.phy.crc_errors = 0 := by rw [e3]; exact k_e
      have l_0 : m3.phy.block_crc0 = b2.crc % 65536 ||| BLOCK_CRC_VALID := by
        rw [e3]; show m2.fpga.databuf_crc.headD 0 % 65536 ||| BLOCK_CRC_VALID = _
        rw [k_q]; rfl
      have l_1 : m3.phy.block_crc1 = b1.crc % 65536 ||| BLOCK_CRC_VALID := by rw [e3]; exact k_0
      have l_q : m3.fpga.databuf_crc = bs.map Block.crc ++ rest_crc := by
        rw [e3]; show m2.fpga.databuf_crc.tail = _
        rw [k_q]; rfl
      have l_h : m3.fpga.udma_crc =
          (b1 :: b2 :: bs).map Block.host ++ rest_host := by
        rw [e3]; show m2.fpga.udma_crc = _
        rw [k_h, hhost]
        simp [udma_crc_answers]
      have l_s : next_status m3 = next_status m := by rw [e3]; exact k_s
      clear e3
      obtain ⟨r1, r2, r3, r4, r5⟩ :=
        udma_finish_two_pending K blocklen (bs.map Block.buf) (bs.map Block.crc) m3 b1.crc b2.crc
          rest_crc (by simp) (by rw [l_u]; exact hmode) l_1 l_0 l_q (by rw [l_s]; exact hfin)
      refine ⟨r1, ?_, ?_, r3, r4⟩
      · rw [r2, l_e, l_h, zero_add]
        have := crc_mismatches_map (b1 :: b2 :: bs) rest_host
        simp only [List.map_cons] at this ⊢
        rw [this]
      · rw [r5, l_h]
        have hl : (bs.map Block.crc).length + 2 = ((b1 :: b2 :: bs).map Block.host).length := by
          simp
        rw [hl, List.drop_left]

/-- Witness for C1: three blocks in UltraDMA mode 0, the host's CRC for the
second one wrong: the counter ends at 1. -/
theorem udma_write_crc_errors_witness :
    ∃ m1, ide_phy_start_write
        (boot (fpga_with [0x05] [] [0x1111, 0x0BAD, 0x3333] [0x1111, 0x2222, 0x3333])) 512 0
        = some m1 ∧
      (ide_phy_is_write_finished sample_consts
        (write_blocks m1 512 [[1], [2], [3]])).2.phy.crc_errors = 1 := by
  obtain ⟨m1, h1, _, h3, _⟩ :=
    udma_write_crc_errors sample_consts
      (boot (fpga_with [0x05] [] [0x1111, 0x0BAD, 0x3333] [0x1111, 0x2222, 0x3333])) 512 0
      [⟨[1], 0x1111, 0x1111⟩, ⟨[2], 0x2222, 0x0BAD⟩, ⟨[3], 0x3333, 0x3333⟩] 0 [] []
      (by decide) (by decide) (by decide) (by decide) (by decide) (by decide)
  exact ⟨m1, h1, h3⟩

/-! ## Draining of the CRC slots -/

/-- `ide_phy_start_read` on an even block length passes its assertion. -/
theorem ide_phy_start_read_even (K : PhyConsts) (m : Machine) (blocklen : Nat) (udma_mode : Int)
    (heven : blocklen % 2 = 0) :
    ide_phy_start_read K m blocklen udma_mode =
      some
        { phy := { m.phy with
            crc_errors := 0
            block_crc0 := 0
            block_crc1 := 0
            transfer_running := true
            udma_mode := -1 }
          fpga := { m.fpga with
            log := m.fpga.log ++
              [FpgaCmd.START_READ (last_word_idx blocklen),
               FpgaCmd.ASSERT_IRQ ((K.IDE_STATUS_DEVRDY ||| K.IDE_STATUS_DATAREQ) % 256)] }
          msgs := m.msgs } := by
  have h1 : blocklen % 2 ^ 32 &&& 1 = 0 := by
    rw [Nat.and_one_is_mod]
    omega
  unfold ide_phy_start_read ide_phy_assert_irq fpga_wrcmd
  dsimp only
  rw [if_neg (fun h => h h1)]
  simp

theorem commands_sent_append (m m1 : Machine) (sent : List FpgaCmd)
    (h : m1.fpga.log = m.fpga.log ++ sent) : commands_sent m m1 = sent := by
  unfold commands_sent
  rw [h, List.drop_left]

/-- C9 (as amended): in every state, the data-phase calls
`ide_phy_write_block` and `ide_phy_is_write_finished` make a READ_UDMA_CRC
exchange for every slot holding a CRC in UltraDMA mode whose value they
replace or clear. In particular, with a CRC in slot 1, `ide_phy_write_block`
sends READ_UDMA_CRC before WRITE_DATABUF, counts a mismatch of slot 1 against
the answer, and only then moves slot 0 into slot 1; a finishing
`ide_phy_is_write_finished` checks slot 1 against the first answer, then slot
0 against the second, and empties both. `ide_phy_start_write` and
`ide_phy_start_read` (on an even block length) instead empty both slots and
zero the counter without any READ_UDMA_CRC exchange. -/
theorem data_phase_drains_before_overwrite (K : PhyConsts) (m : Machine) :
    (∀ op : PhyOp, op.is_write_phase = true → drains_before_overwrite K m op) ∧
    (∀ buf blocklen, 0 ≤ m.phy.udma_mode → m.phy.block_crc1 &&& BLOCK_CRC_VALID ≠ 0 →
      commands_sent m (ide_phy_write_block m buf blocklen) =
        [FpgaCmd.READ_UDMA_CRC, FpgaCmd.WRITE_DATABUF buf blocklen] ∧
      (ide_phy_write_block m buf blocklen).phy.crc_errors = m.phy.crc_errors +
        (if crc_mismatch m.phy.block_crc1 (m.fpga.udma_crc.headD 0) then 1 else 0) ∧
      (ide_phy_write_block m buf blocklen).phy.block_crc1 = m.phy.block_crc0) ∧
    (0 ≤ m.phy.udma_mode → write_finished_status K (next_status m) →
      commands_sent m (ide_phy_is_write_finished K m).2 =
        [FpgaCmd.READ_STATUS, FpgaCmd.READ_UDMA_CRC, FpgaCmd.READ_UDMA_CRC] ∧
      (ide_phy_is_write_finished K m).2.phy.crc_errors = m.phy.crc_errors +
        (if crc_mismatch m.phy.block_crc1 (m.fpga.udma_crc.headD 0) then 1 else 0) +
        (if crc_mismatch m.phy.block_crc0 (m.fpga.udma_crc.tail.headD 0) then 1 else 0) ∧
      (ide_phy_is_write_finished K m).2.phy.block_crc1 = 0 ∧
      (ide_phy_is_write_finished K m).2.phy.block_crc0 = 0) ∧
    (∀ blocklen udma_mode, blocklen % 2 = 0 →
      ∃ m1 m2, ide_phy_start_write m blocklen udma_mode = some m1 ∧
        ide_phy_start_read K m blocklen udma_mode = some m2 ∧
        m1.phy.block_crc0 = 0 ∧ m1.phy.block_crc1 = 0 ∧ m1.phy.crc_errors = 0 ∧
        m2.phy.block_crc0 = 0 ∧ m2.phy.block_crc1 = 0 ∧ m2.phy.crc_errors = 0 ∧
        crc_reads m m1 = 0 ∧ crc_reads m m2 = 0) := by
  refine ⟨?_, ?_, ?_, ?_⟩
  · intro op hop m1 hstep hu
    cases op <;> simp [PhyOp.is_write_phase] at hop
    case write_block buf blocklen =>
      have hm1 : m1 = ide_phy_write_block m buf blocklen := (Option.some.inj hstep).symm
      by_cases hv : m.phy.block_crc1 &&& BLOCK_CRC_VALID ≠ 0
      · have e := ide_phy_write_block_verify m buf blocklen hu hv
        rw [← hm1] at e
        have hlog : m1.fpga.log = m.fpga.log ++
            [FpgaCmd.READ_UDMA_CRC, FpgaCmd.WRITE_DATABUF buf blocklen] := by rw [e]
        have h1 : m1.phy.block_crc1 = m.phy.block_crc0 := by rw [e]
        have hkeep : ¬ (m.phy.block_crc0 &&& BLOCK_CRC_VALID ≠ 0 ∧
            m1.phy.block_crc0 ≠ m.phy.block_crc0 ∧ m1.phy.block_crc1 ≠ m.phy.block_crc0) :=
          fun h => h.2.2 h1
        unfold lost_slots crc_reads
        rw [commands_sent_append m m1 _ hlog, if_neg hkeep]
        split_ifs <;> simp
      · have e := ide_phy_write_block_plain m buf blocklen (fun h => hv h.2)
        rw [← hm1] at e
        have h1 : m1.phy.block_crc1 = m.phy.block_crc0 := by rw [e]
        have hkeep : ¬ (m.phy.block_crc0 &&& BLOCK_CRC_VALID ≠ 0 ∧
            m1.phy.block_crc0 ≠ m.phy.block_crc0 ∧ m1.phy.block_crc1 ≠ m.phy.block_crc0) :=
          fun h => h.2.2 h1
        have hempty : ¬ (m.phy.block_crc1 &&& BLOCK_CRC_VALID ≠ 0 ∧
            m1.phy.block_crc1 ≠ m.phy.block_crc1) := fun h => hv h.1
        unfold lost_slots
        rw [if_neg hkeep, if_neg hempty]
        simp
    case is_write_finished =>
      have hm1 : m1 = (ide_phy_is_write_finished K m).2 := (Option.some.inj hstep).symm
      by_cases hs : write_finished_status K (next_status m)
      · have e := ide_phy_is_write_finished_udma K m hu hs
        rw [e] at hm1
        have hlog : m1.fpga.log = m.fpga.log ++
            [FpgaCmd.READ_STATUS, FpgaCmd.READ_UDMA_CRC, FpgaCmd.READ_UDMA_CRC] := by rw [hm1]
        unfold lost_slots crc_reads
        rw [commands_sent_append m m1 _ hlog]
        have : List.count FpgaCmd.READ_UDMA_CRC
            [FpgaCmd.READ_STATUS, FpgaCmd.READ_UDMA_CRC, FpgaCmd.READ_UDMA_CRC] = 2 := by decide
        rw [this]
        split_ifs <;> simp
      · have e := ide_phy_is_write_finished_busy K m hs
        rw [e] at hm1
        have h1 : m1.phy.block_crc1 = m.phy.block_crc1 := by rw [hm1]
        have h0 : m1.phy.block_crc0 = m.phy.block_crc0 := by rw [hm1]
        have hkeep0 : ¬ (m.phy.block_crc0 &&& BLOCK_CRC_VALID ≠ 0 ∧
            m1.phy.block_crc0 ≠ m.phy.block_crc0 ∧ m1.phy.block_crc1 ≠ m.phy.block_crc0) :=
          fun h => h.2.1 h0
        have hkeep1 : ¬ (m.phy.block_crc1 &&& BLOCK_CRC_VALID ≠ 0 ∧
            m1.phy.block_crc1 ≠ m.phy.block_crc1) := fun h => h.2 h1
        unfold lost_slots
        rw [if_neg hkeep0, if_neg hkeep1]
        simp
  · intro buf blocklen hu hv
    rw [ide_phy_write_block_verify m buf blocklen hu hv]
    exact ⟨commands_sent_append _ _ _ rfl, rfl, rfl⟩
  · intro hu hs
    rw [ide_phy_is_write_finished_udma K m hu hs]
    exact ⟨commands_sent_append _ _ _ rfl, rfl, rfl, rfl⟩
  · intro blocklen udma_mode heven
    refine ⟨_, _, ide_phy_start_write_even m blocklen udma_mode heven,
      ide_phy_start_read_even K m blocklen udma_mode heven, rfl, rfl, rfl, rfl, rfl, rfl, ?_, ?_⟩
    · unfold crc_reads
      rw [commands_sent_append _ _ _ rfl]
      split_ifs <;> simp
    · unfold crc_reads
      rw [commands_sent_append _ _ _ rfl]
      simp

/-- Counterexample to C9 as stated: the state `mid_transfer` is reached by
`ide_phy_start_write(512, 0)` and one `ide_phy_write_block`; it is in
UltraDMA mode with a CRC held in slot 0. A further `ide_phy_start_write` or
`ide_phy_start_read` empties that slot without any READ_UDMA_CRC exchange:
the host CRC is still unread afterwards. -/
theorem start_clears_slot_unverified :
    run sample_consts (boot (fpga_with [] [] [0xBEEF] [0x1234]))
      [PhyOp.start_write 512 0, PhyOp.write_block [0xAA, 0x55] 512] = some mid_transfer ∧
    0 ≤ mid_transfer.phy.udma_mode ∧
    mid_transfer.phy.block_crc0 &&& BLOCK_CRC_VALID ≠ 0 ∧
    (ide_phy_start_write mid_transfer 512 0).map (fun m => (m.phy.block_crc0, m.fpga.udma_crc)) =
      some (0, [0xBEEF]) ∧
    ¬ drains_before_overwrite sample_consts mid_transfer (PhyOp.start_write 512 0) ∧
    ¬ drains_before_overwrite sample_consts mid_transfer (PhyOp.start_read 512 0) := by
  refine ⟨by decide, by decide, by decide, by decide, ?_, ?_⟩
  · intro h
    have h1 := h _ (ide_phy_start_write_even mid_transfer 512 0 (by decide)) (by decide)
    revert h1
    decide
  · intro h
    have h1 := h _ (ide_phy_start_read_even sample_consts mid_transfer 512 0 (by decide))
      (by decide)
    revert h1
    decide

/-- Witness for C9: with CRCs in both slots, the next `ide_phy_write_block`
reads the host CRC before writing the data. -/
theorem data_phase_drains_before_overwrite_witness :
    commands_sent (ide_phy_write_block mid_transfer [2] 512)
        (ide_phy_write_block (ide_phy_write_block mid_transfer [2] 512) [3] 512) =
      [FpgaCmd.READ_UDMA_CRC, FpgaCmd.WRITE_DATABUF [3] 512] :=
  ((data_phase_drains_before_overwrite sample_consts
      (ide_phy_write_block mid_transfer [2] 512)).2.1 [3] 512 (by decide) (by decide)).1

/-! ## The CRC-error counter over sequences of calls -/

/-- A call whose assertion holds returns. -/
theorem step_succeeds (K : PhyConsts) (m : Machine) (op : PhyOp)
    (h : assert_holds K m op = true) : ∃ m1, step K m op = some m1 := by
  cases op with
  | start_write blocklen udma_mode =>
    exact ⟨_, ide_phy_start_write_even m blocklen udma_mode (by simpa [assert_holds] using h)⟩
  | start_read blocklen udma_mode =>
    exact ⟨_, ide_phy_start_read_even K m blocklen udma_mode (by simpa [assert_holds] using h)⟩
  | can_write_block =>
    have h1 : (m.fpga.status.headD 0 % 256) &&& K.FPGA_STATUS_DATA_DIR ≠ 0 :=
      of_decide_eq_true h
    unfold step ide_phy_can_write_block fpga_rdcmd_READ_STATUS
    dsimp only
    rw [if_neg h1]
    exact ⟨_, rfl⟩
  | can_read_block =>
    have h1 : (m.fpga.status.headD 0 % 256) &&& K.FPGA_STATUS_DATA_DIR = 0 :=
      of_decide_eq_true h
    unfold step ide_phy_can_read_block fpga_rdcmd_READ_STATUS
    dsimp only
    rw [if_neg (fun hne => hne h1)]
    exact ⟨_, rfl⟩
  | reset config => exact ⟨_, rfl⟩
  | reset_from_watchdog => exact ⟨_, rfl⟩
  | get_events => exact ⟨_, rfl⟩
  | get_regs => exact ⟨_, rfl⟩
  | set_regs regs => exact ⟨_, rfl⟩
  | write_block buf blocklen => exact ⟨_, rfl⟩
  | is_write_finished => exact ⟨_, rfl⟩
  | read_block blocklen => exact ⟨_, rfl⟩
  | stop_transfers crc_errors_ptr => exact ⟨_, rfl⟩
  | assert_irq ide_status => exact ⟨_, rfl⟩
  | get_capabilities => exact ⟨_, rfl⟩

theorem run_append (K : PhyConsts) (xs ys : List PhyOp) :
    ∀ m : Machine, run K m (xs ++ ys) = (run K m xs).bind (fun m1 => run K m1 ys) := by
  induction xs with
  | nil => intro m; rfl
  | cons x xs ih =>
    intro m
    simp only [List.cons_append, run]
    cases step K m x with
    | none => rfl
    | some m1 => exact ih m1

theorem ide_phy_get_events_msgs (K : PhyConsts) (m : Machine) :
    (ide_phy_get_events K m).2.msgs = m.msgs := by
  unfold ide_phy_get_events ide_phy_reset fpga_rdcmd_READ_STATUS fpga_rdcmd_READ_IDE_REGS
  dsimp only
  split_ifs <;> rfl

theorem crc_mismatch_ne (a h : Nat) (hm : crc_mismatch a h = true) : a % 65536 ≠ h % 65536 := by
  unfold crc_mismatch at hm
  simp only [Bool.and_eq_true, decide_eq_true_eq] at hm
  exact hm.2

/-- A call that is not a start adds to the counter exactly the number of
mismatch warnings it logs. -/
theorem step_counts_mismatches (K : PhyConsts) (m : Machine) (op : PhyOp) (m1 : Machine)
    (hop : op.is_start = false) (h : step K m op = some m1) :
    ∃ new : List (Nat × Nat), m1.msgs = m.msgs ++ new ∧
      m1.phy.crc_errors = m.phy.crc_errors + (new.length : Int) ∧
      ∀ p ∈ new, p.1 ≠ p.2 := by
  have hnil : ∀ x : Machine, m1 = x → x.msgs = m.msgs → x.phy.crc_errors = m.phy.crc_errors →
      ∃ new : List (Nat × Nat), m1.msgs = m.msgs ++ new ∧
      m1.phy.crc_errors = m.phy.crc_errors + (new.length : Int) ∧ ∀ p ∈ new, p.1 ≠ p.2 := by
    intro x h3 h1 h2
    subst h3
    exact ⟨[], by simp [h1], by simp [h2], by simp⟩
  cases op with
  | reset config => exact hnil _ (Option.some.inj h).symm rfl rfl
  | reset_from_watchdog => exact hnil _ (Option.some.inj h).symm rfl rfl
  | get_events =>
    refine hnil _ (Option.some.inj h).symm (ide_phy_get_events_msgs K m) ?_
    rw [ide_phy_get_events_phy]
    split_ifs <;> rfl
  | get_regs => exact hnil _ (Option.some.inj h).symm rfl rfl
  | set_regs regs => exact hnil _ (Option.some.inj h).symm rfl rfl
  | start_write blocklen udma_mode => simp [PhyOp.is_start] at hop
  | can_write_block =>
    unfold step ide_phy_can_write_block at h
    dsimp only at h
    split_ifs at h
    · simp at h
    · exact hnil _ (Option.some.inj h).symm rfl rfl
  | write_block buf blocklen =>
    have hm1 : m1 = ide_phy_write_block m buf blocklen := (Option.some.inj h).symm
    by_cases hv : 0 ≤ m.phy.udma_mode ∧ m.phy.block_crc1 &&& BLOCK_CRC_VALID ≠ 0
    · rw [ide_phy_write_block_verify m buf blocklen hv.1 hv.2] at hm1
      clear hnil
      subst hm1
      refine ⟨_, rfl, ?_, ?_⟩
      · dsimp only
        generalize crc_mismatch m.phy.block_crc1 (m.fpga.udma_crc.headD 0) = c
        cases c <;> simp
      · intro p hp
        by_cases hc : crc_mismatch m.phy.block_crc1 (m.fpga.udma_crc.headD 0) = true
        · rw [if_pos hc, List.mem_singleton] at hp
          subst hp
          exact crc_mismatch_ne _ _ hc
        · rw [if_neg hc] at hp
          simp at hp
    · rw [ide_phy_write_block_plain m buf blocklen hv] at hm1
      exact hnil _ hm1 rfl rfl
  | is_write_finished =>
    have hm1 : m1 = (ide_phy_is_write_finished K m).2 := (Option.some.inj h).symm
    by_cases hs : write_finished_status K (next_status m)
    · by_cases hu : 0 ≤ m.phy.udma_mode
      · rw [ide_phy_is_write_finished_udma K m hu hs] at hm1
        clear hnil
        subst hm1
        refine ⟨_, List.append_assoc _ _ _, ?_, ?_⟩
        · dsimp only
          generalize crc_mismatch m.phy.block_crc1 (m.fpga.udma_crc.headD 0) = c
          generalize crc_mismatch m.phy.block_crc0 (m.fpga.udma_crc.tail.headD 0) = d
          cases c <;> cases d <;> simp [add_assoc]
        · intro p hp
          rw [List.mem_append] at hp
          rcases hp with hp | hp
          · by_cases hc : crc_mismatch m.phy.block_crc1 (m.fpga.udma_crc.headD 0) = true
            · rw [if_pos hc, List.mem_singleton] at hp
              subst hp
              exact crc_mismatch_ne _ _ hc
            · rw [if_neg hc] at hp
              simp at hp
          · by_cases hd : crc_mismatch m.phy.block_crc0 (m.fpga.udma_crc.tail.headD 0) = true
            · rw [if_pos hd, List.mem_singleton] at hp
              subst hp
              exact crc_mismatch_ne _ _ hd
            · rw [if_neg hd] at hp
              simp at hp
      · rw [ide_phy_is_write_finished_pio K m (by omega) hs] at hm1
        exact hnil _ hm1 rfl rfl
    · rw [ide_phy_is_write_finished_busy K m hs] at hm1
      exact hnil _ hm1 rfl rfl
  | start_read blocklen udma_mode => simp [PhyOp.is_start] at hop
  | can_read_block =>
    unfold step ide_phy_can_read_block at h
    dsimp only at h
    split_ifs at h
    · simp at h
    · exact hnil _ (Option.some.inj h).symm rfl rfl
  | read_block blocklen => exact hnil _ (Option.some.inj h).symm rfl rfl
  | stop_transfers crc_errors_ptr => exact hnil _ (Option.some.inj h).symm rfl rfl
  | assert_irq ide_status => exact hnil _ (Option.some.inj h).symm rfl rfl
  | get_capabilities => exact hnil _ (Option.some.inj h).symm rfl rfl

theorem run_counts_mismatches (K : PhyConsts) (ops : List PhyOp) :
    ∀ (m m1 : Machine), (∀ op ∈ ops, op.is_start = false) → run K m ops = some m1 →
    ∃ new : List (Nat × Nat), m1.msgs = m.msgs ++ new ∧
      m1.phy.crc_errors = m.phy.crc_errors + (new.length : Int) ∧
      ∀ p ∈ new, p.1 ≠ p.2 := by
  induction ops with
  | nil =>
    intro m m1 _ h
    have : m1 = m := (Option.some.inj h).symm
    subst this
    exact ⟨[], by simp, by simp, by simp⟩
  | cons op ops ih =>
    intro m m1 hops h
    simp only [run] at h
    cases hstep : step K m op with
    | none => rw [hstep] at h; simp at h
    | some m2 =>
      rw [hstep] at h
      obtain ⟨n1, a1, a2, a3⟩ := step_counts_mismatches K m op m2 (hops op (by simp)) hstep
      obtain ⟨n2, b1, b2, b3⟩ := ih m2 m1 (fun o ho => hops o (by simp [ho])) h
      refine ⟨n1 ++ n2, ?_, ?_, ?_⟩
      · rw [b1, a1, List.append_assoc]
      · rw [b2, a2, List.length_append]; push_cast; ring
      · intro p hp
        rcases List.mem_append.mp hp with hp | hp
        · exact a3 p hp
        · exact b3 p hp

/-- A start call that passes its assertion zeroes the counter and logs no
warning. -/
theorem step_start_zeroes (K : PhyConsts) (m : Machine) (op : PhyOp) (m1 : Machine)
    (hop : op.is_start = true) (h : step K m op = some m1) :
    m1.phy.crc_errors = 0 ∧ m1.msgs = m.msgs := by
  cases op <;> simp [PhyOp.is_start] at hop
  case start_write blocklen udma_mode =>
    unfold step ide_phy_start_write at h
    dsimp only at h
    split_ifs at h
    all_goals
      have e := (Option.some.inj h).symm
      subst e
      exact ⟨rfl, rfl⟩
  case start_read blocklen udma_mode =>
    unfold step ide_phy_start_read at h
    dsimp only at h
    split_ifs at h
    have e := (Option.some.inj h).symm
    subst e
    exact ⟨rfl, rfl⟩

/-- C5: let a sequence of phy calls run without tripping an assertion, let
`st` be its most recent `ide_phy_start_write` or `ide_phy_start_read`, and
`post` the calls made since. Then the start left the counter at 0 (so
`ide_phy_stop_transfers` right after it reports 0), and at the end
`ide_phy_stop_transfers` reports exactly the number of CRC mismatch warnings
logged by `post`, each of them a genuine difference between the calculated
and the host CRC; nothing logged before the start is included. -/
theorem stop_transfers_reports_current_transfer (K : PhyConsts) (m0 : Machine)
    (pre : List PhyOp) (st : PhyOp) (post : List PhyOp) (m : Machine)
    (hst : st.is_start = true) (hpost : ∀ op ∈ post, op.is_start = false)
    (hrun : run K m0 (pre ++ st :: post) = some m) :
    ∃ (ms : Machine) (new : List (Nat × Nat)),
      run K m0 (pre ++ [st]) = some ms ∧ run K ms post = some m ∧
      ms.phy.crc_errors = 0 ∧ (ide_phy_stop_transfers ms true).1 = some 0 ∧
      m.msgs = ms.msgs ++ new ∧ (∀ p ∈ new, p.1 ≠ p.2) ∧
      (ide_phy_stop_transfers m true).1 = some (new.length : Int) := by
  rw [run_append] at hrun
  cases hpre : run K m0 pre with
  | none => rw [hpre] at hrun; simp at hrun
  | some mp =>
    rw [hpre] at hrun
    simp only [Option.some_bind, run] at hrun
    cases hstep : step K mp st with
    | none => rw [hstep] at hrun; simp at hrun
    | some ms =>
      rw [hstep] at hrun
      simp only [Option.some_bind] at hrun
      obtain ⟨hz, _⟩ := step_start_zeroes K mp st ms hst hstep
      obtain ⟨new, b1, b2, b3⟩ := run_counts_mismatches K post ms m hpost hrun
      refine ⟨ms, new, ?_, hrun, hz, ?_, b1, b3, ?_⟩
      · rw [run_append, hpre]
        simp [run, hstep]
      · show some ms.phy.crc_errors = some 0
        rw [hz]
      · show some m.phy.crc_errors = some (new.length : Int)
        rw [b2, hz, zero_add]

/-- Witness for C5: a first UltraDMA transfer with one mismatching block,
then a second transfer of three blocks of which the first mismatches: after
the third `ide_phy_write_block` of the second transfer two warnings have been
logged in all, and the count reported is the one warning of the second
transfer. -/
theorem stop_transfers_reports_current_transfer_witness :
    second_transfer.msgs.length = 2 ∧
    (ide_phy_stop_transfers second_transfer true).1 = some 1 ∧
    ∃ (ms : Machine) (new : List (Nat × Nat)),
      run sample_consts
        (boot (fpga_with [0x05] [] [0, 0x0BAD, 0x0BAD] [0x1111, 0x2222, 0x3333, 0x4444]))
        ([PhyOp.start_write 512 0, PhyOp.write_block [1] 512, PhyOp.is_write_finished] ++
          [PhyOp.start_write 512 0]) = some ms ∧
      run sample_consts ms
        [PhyOp.write_block [2] 512, PhyOp.write_block [3] 512, PhyOp.write_block [4] 512]
        = some second_transfer ∧
      ms.phy.crc_errors = 0 ∧ (ide_phy_stop_transfers ms true).1 = some 0 ∧
      second_transfer.msgs = ms.msgs ++ new ∧ (∀ p ∈ new, p.1 ≠ p.2) ∧
      (ide_phy_stop_transfers second_transfer true).1 = some (new.length : Int) :=
  ⟨by decide, by decide,
   stop_transfers_reports_current_transfer sample_consts
    (boot (fpga_with [0x05] [] [0, 0x0BAD, 0x0BAD] [0x1111, 0x2222, 0x3333, 0x4444]))
    [PhyOp.start_write 512 0, PhyOp.write_block [1] 512, PhyOp.is_write_finished]
    (PhyOp.start_write 512 0)
    [PhyOp.write_block [2] 512, PhyOp.write_block [3] 512, PhyOp.write_block [4] 512]
    second_transfer (by decide) (by decide) (by decide)⟩

/-! ## Transfer-done events -/

/-- With no transfer running a poll never returns DATA_TRANSFER_DONE. -/
theorem ide_phy_get_events_not_done (K : PhyConsts) (m : Machine)
    (hr : m.phy.transfer_running = false) :
    (ide_phy_get_events K m).1 ≠ IDE_EVENT_DATA_TRANSFER_DONE := by
  rw [ide_phy_get_events_event, hr]
  split_ifs <;> first | contradiction | simp

/-- A call other than `ide_phy_write_block` and `ide_phy_start_read` leaves a
stopped transfer stopped. -/
theorem step_keeps_stopped (K : PhyConsts) (m : Machine) (op : PhyOp) (m1 : Machine)
    (hop : op.sets_running = false) (hr : m.phy.transfer_running = false)
    (h : step K m op = some m1) : m1.phy.transfer_running = false := by
  cases op with
  | reset config => rw [← Option.some.inj h]; exact hr
  | reset_from_watchdog => rw [← Option.some.inj h]; exact hr
  | get_events =>
    rw [← Option.some.inj h, ide_phy_get_events_phy]
    split_ifs
    · exact hr
    · rfl
    · exact hr
  | get_regs => rw [← Option.some.inj h]; exact hr
  | set_regs regs => rw [← Option.some.inj h]; exact hr
  | start_write blocklen udma_mode =>
    unfold step ide_phy_start_write at h
    dsimp only at h
    split_ifs at h
    all_goals
      rw [← Option.some.inj h]
      exact hr
  | can_write_block =>
    unfold step ide_phy_can_write_block at h
    dsimp only at h
    split_ifs at h
    · simp at h
    · rw [← Option.some.inj h]; exact hr
  | write_block buf blocklen => simp [PhyOp.sets_running] at hop
  | is_write_finished =>
    rw [← Option.some.inj h]
    by_cases hs : write_finished_status K (next_status m)
    · by_cases hu : 0 ≤ m.phy.udma_mode
      · rw [ide_phy_is_write_finished_udma K m hu hs]
      · rw [ide_phy_is_write_finished_pio K m (by omega) hs]
    · rw [ide_phy_is_write_finished_busy K m hs]; exact hr
  | start_read blocklen udma_mode => simp [PhyOp.sets_running] at hop
  | can_read_block =>
    unfold step ide_phy_can_read_block at h
    dsimp only at h
    split_ifs at h
    · simp at h
    · rw [← Option.some.inj h]; exact hr
  | read_block blocklen => rw [← Option.some.inj h]; exact hr
  | stop_transfers crc_errors_ptr => rw [← Option.some.inj h]; rfl
  | assert_irq ide_status => rw [← Option.some.inj h]; exact hr
  | get_capabilities => rw [← Option.some.inj h]; exact hr

theorem run_keeps_stopped (K : PhyConsts) (ops : List PhyOp) :
    ∀ (m m1 : Machine), (∀ op ∈ ops, op.sets_running = false) →
      m.phy.transfer_running = false → run K m ops = some m1 →
      m1.phy.transfer_running = false := by
  induction ops with
  | nil =>
    intro m m1 _ hr h
    rw [← Option.some.inj h]; exact hr
  | cons op ops ih =>
    intro m m1 hops hr h
    simp only [run] at h
    cases hstep : step K m op with
    | none => rw [hstep] at h; simp at h
    | some m2 =>
      rw [hstep] at h
      exact ih m2 m1 (fun o ho => hops o (by simp [ho]))
        (step_keeps_stopped K m op m2 (hops op (by simp)) hr hstep) h

/-- C8: a poll returns DATA_TRANSFER_DONE only if `transfer_running` was set
before it, and returning it clears `transfer_running`, so no poll made from
the resulting driver state returns it again, whatever the status byte (the
same one included). After `ide_phy_stop_transfers`, through any sequence of
calls that contains neither `ide_phy_write_block` nor `ide_phy_start_read`,
`transfer_running` stays clear and no poll returns DATA_TRANSFER_DONE for any
status byte; those two calls are the ones that set the flag again. -/
theorem transfer_done_reported_once (K : PhyConsts) (m : Machine) :
    ((ide_phy_get_events K m).1 = IDE_EVENT_DATA_TRANSFER_DONE →
      m.phy.transfer_running = true ∧
      (ide_phy_get_events K m).2.phy.transfer_running = false ∧
      ∀ m2 : Machine, m2.phy = (ide_phy_get_events K m).2.phy →
        (ide_phy_get_events K m2).1 ≠ IDE_EVENT_DATA_TRANSFER_DONE) ∧
    (∀ (crc_errors_ptr : Bool) (ops : List PhyOp) (m1 : Machine),
      (∀ op ∈ ops, op.sets_running = false) →
      run K (ide_phy_stop_transfers m crc_errors_ptr).2 ops = some m1 →
      m1.phy.transfer_running = false ∧
      ∀ m2 : Machine, m2.phy = m1.phy →
        (ide_phy_get_events K m2).1 ≠ IDE_EVENT_DATA_TRANSFER_DONE) ∧
    (∀ buf blocklen, (ide_phy_write_block m buf blocklen).phy.transfer_running = true) ∧
    (∀ blocklen udma_mode m1, ide_phy_start_read K m blocklen udma_mode = some m1 →
      m1.phy.transfer_running = true) := by
  refine ⟨?_, ?_, ?_, ?_⟩
  · intro hdone
    have hrun : m.phy.transfer_running = true := by
      cases hr : m.phy.transfer_running with
      | true => rfl
      | false => exact absurd hdone (ide_phy_get_events_not_done K m hr)
    have hw : m.phy.watchdog_error = false := by
      cases hwd : m.phy.watchdog_error with
      | false => rfl
      | true =>
        rw [ide_phy_get_events_watchdog K m hwd] at hdone
        simp at hdone
    have hafter : (ide_phy_get_events K m).2.phy.transfer_running = false := by
      rw [ide_phy_get_events_phy, if_neg (by simp [hw]), if_pos hdone]
    refine ⟨hrun, hafter, ?_⟩
    intro m2 h2
    exact ide_phy_get_events_not_done K m2 (by rw [h2]; exact hafter)
  · intro ptr ops m1 hops hrun
    have hstop : m1.phy.transfer_running = false :=
      run_keeps_stopped K ops _ m1 hops rfl hrun
    exact ⟨hstop, fun m2 h2 => ide_phy_get_events_not_done K m2 (by rw [h2]; exact hstop)⟩
  · intro buf blocklen
    unfold ide_phy_write_block
    rfl
  · intro blocklen udma_mode m1 h
    unfold ide_phy_start_read at h
    dsimp only at h
    split_ifs at h
    rw [← Option.some.inj h]
    rfl

/-- Witness for C8: a running write whose TX_DONE bit is set (status 0x05) is
reported as done, and a second poll with the same status byte returns NONE. -/
theorem transfer_done_reported_once_witness :
    (ide_phy_get_events sample_consts
      { mid_transfer with fpga := fpga_with [0x05, 0x05] [] [] [] }).1
      = IDE_EVENT_DATA_TRANSFER_DONE ∧
    (ide_phy_get_events sample_consts
      (ide_phy_get_events sample_consts
        { mid_transfer with fpga := fpga_with [0x05, 0x05] [] [] [] }).2).1
      ≠ IDE_EVENT_DATA_TRANSFER_DONE :=
  ⟨by decide,
   ((transfer_done_reported_once sample_consts
      { mid_transfer with fpga := fpga_with [0x05, 0x05] [] [] [] }).1 (by decide)).2.2
      (ide_phy_get_events sample_consts
        { mid_transfer with fpga := fpga_with [0x05, 0x05] [] [] [] }).2 rfl⟩

/-! ## One-block UltraDMA transfers -/

/-- C11: in an UltraDMA transfer of a single block (`ide_phy_start_write` on
an even block length with mode `>= 0`, one `ide_phy_write_block`, then an
`ide_phy_is_write_finished` whose status byte says the transfer is over) the
`ide_phy_write_block` call sends WRITE_DATABUF only: no READ_UDMA_CRC, no host
CRC consumed, counter 0, slot 1 empty and the block's CRC in slot 0. The
finishing call returns true and sends READ_UDMA_CRC exactly twice: the check
of the empty slot 1 reads the first answer and leaves the counter at 0, and
the counter ends at 1 if the second answer differs from the block's 16-bit
CRC and at 0 otherwise, whatever the first answer was. Both slots are empty
afterwards. -/
theorem udma_single_block_transfer (K : PhyConsts) (m : Machine) (blocklen : Nat)
    (udma_mode : Int) (buf : List Nat)
    (heven : blocklen % 2 = 0) (hmode : 0 ≤ udma_mode)
    (hfin : write_finished_status K (next_status m)) :
    ∃ m1, ide_phy_start_write m blocklen udma_mode = some m1 ∧
      commands_sent m1 (ide_phy_write_block m1 buf blocklen) =
        [FpgaCmd.WRITE_DATABUF buf blocklen] ∧
      (ide_phy_write_block m1 buf blocklen).fpga.udma_crc = m.fpga.udma_crc ∧
      (ide_phy_write_block m1 buf blocklen).phy.crc_errors = 0 ∧
      (ide_phy_write_block m1 buf blocklen).phy.block_crc1 = 0 ∧
      (ide_phy_write_block m1 buf blocklen).phy.block_crc0 =
        m.fpga.databuf_crc.headD 0 % 65536 ||| BLOCK_CRC_VALID ∧
      commands_sent (ide_phy_write_block m1 buf blocklen)
          (verify_crc (ide_phy_write_block m1 buf blocklen) CrcSlot.block_crc1) =
        [FpgaCmd.READ_UDMA_CRC] ∧
      (verify_crc (ide_phy_write_block m1 buf blocklen) CrcSlot.block_crc1).phy.crc_errors = 0 ∧
      (ide_phy_is_write_finished K (ide_phy_write_block m1 buf blocklen)).1 = true ∧
      commands_sent (ide_phy_write_block m1 buf blocklen)
          (ide_phy_is_write_finished K (ide_phy_write_block m1 buf blocklen)).2 =
        [FpgaCmd.READ_STATUS, FpgaCmd.READ_UDMA_CRC, FpgaCmd.READ_UDMA_CRC] ∧
      (ide_phy_is_write_finished K (ide_phy_write_block m1 buf blocklen)).2.phy.crc_errors =
        (if m.fpga.databuf_crc.headD 0 % 65536 ≠ m.fpga.udma_crc.tail.headD 0 % 65536
          then 1 else 0) ∧
      (ide_phy_is_write_finished K (ide_phy_write_block m1 buf blocklen)).2.phy.block_crc0 = 0 ∧
      (ide_phy_is_write_finished K (ide_phy_write_block m1 buf blocklen)).2.phy.block_crc1 = 0 ∧
      (ide_phy_is_write_finished K (ide_phy_write_block m1 buf blocklen)).2.fpga.udma_crc =
        m.fpga.udma_crc.tail.tail := by
  have hsw := ide_phy_start_write_even m blocklen udma_mode heven
  obtain ⟨m1, hm1⟩ : ∃ m1, ide_phy_start_write m blocklen udma_mode = some m1 := ⟨_, hsw⟩
  have heq := Option.some.inj (hm1.symm.trans hsw)
  have g_u : m1.phy.udma_mode = udma_mode := by
    rw [heq]; show (if udma_mode < 0 then (-1 : Int) else udma_mode) = udma_mode
    rw [if_neg (by omega)]
  have g_e : m1.phy.crc_errors = 0 := by rw [heq]
  have g_0 : m1.phy.block_crc0 = 0 := by rw [heq]
  have g_1 : m1.phy.block_crc1 = 0 := by rw [heq]
  have g_q : m1.fpga.databuf_crc = m.fpga.databuf_crc := by rw [heq]
  have g_h : m1.fpga.udma_crc = m.fpga.udma_crc := by rw [heq]
  have g_s : next_status m1 = next_status m := by rw [heq]; rfl
  clear heq hsw
  have hzero : (0 : Nat) &&& BLOCK_CRC_VALID = 0 := by decide
  have e2 := ide_phy_write_block_plain m1 buf blocklen (by rw [g_1]; exact fun h => h.2 hzero)
  refine ⟨m1, hm1, ?_⟩
  generalize ide_phy_write_block m1 buf blocklen = m2 at e2 ⊢
  have k_l : m2.fpga.log = m1.fpga.log ++ [FpgaCmd.WRITE_DATABUF buf blocklen] := by rw [e2]
  have k_u : m2.phy.udma_mode = udma_mode := by rw [e2]; exact g_u
  have k_e : m2.phy.crc_errors = 0 := by rw [e2]; exact g_e
  have k_0 : m2.phy.block_crc0 = m.fpga.databuf_crc.headD 0 % 65536 ||| BLOCK_CRC_VALID := by
    rw [e2]; show m1.fpga.databuf_crc.headD 0 % 65536 ||| BLOCK_CRC_VALID = _
    rw [g_q]
  have k_1 : m2.phy.block_crc1 = 0 := by rw [e2]; exact g_0
  have k_h : m2.fpga.udma_crc = m.fpga.udma_crc := by rw [e2]; exact g_h
  have k_s : next_status m2 = next_status m := by rw [e2]; exact g_s
  clear e2
  have hu2 : 0 ≤ m2.phy.udma_mode := by rw [k_u]; exact hmode
  have hs2 : write_finished_status K (next_status m2) := by rw [k_s]; exact hfin
  refine ⟨commands_sent_append _ _ _ k_l, k_h, k_e, k_1, k_0, ?_, ?_, ?_⟩
  · rw [verify_crc_eq]
    exact commands_sent_append _ _ _ rfl
  · rw [verify_crc_eq]
    show m2.phy.crc_errors +
      (if crc_mismatch m2.phy.block_crc1 (m2.fpga.udma_crc.headD 0) then 1 else 0) = 0
    rw [k_e, k_1, crc_mismatch_empty]
    rfl
  · rw [ide_phy_is_write_finished_udma K m2 hu2 hs2]
    refine ⟨rfl, commands_sent_append _ _ _ rfl, ?_, rfl, rfl, ?_⟩
    · show m2.phy.crc_errors +
          (if crc_mismatch m2.phy.block_crc1 (m2.fpga.udma_crc.headD 0) then 1 else 0) +
          (if crc_mismatch m2.phy.block_crc0 (m2.fpga.udma_crc.tail.headD 0) then 1 else 0) = _
      rw [k_e, k_1, k_0, k_h, crc_mismatch_empty, crc_mismatch_valid]
      generalize m.fpga.databuf_crc.headD 0 = c
      generalize m.fpga.udma_crc.tail.headD 0 = h
      by_cases hc : c % 65536 = h % 65536
      · simp [hc]
      · simp [hc]
    · show m2.fpga.udma_crc.tail.tail = _
      rw [k_h]

/-- Witness for C11: one 512-byte block with CRC 0x1234; the chip answers
0x1234 for the empty buffer and then the host's (wrong) 0xBEEF: the counter
ends at 1 and both answers are consumed. -/
theorem udma_single_block_transfer_witness :
    ∃ m1, ide_phy_start_write (boot (fpga_with [0x05] [] [0x1234, 0xBEEF] [0x1234])) 512 0
        = some m1 ∧
      (ide_phy_is_write_finished sample_consts
        (ide_phy_write_block m1 [0xAA, 0x55] 512)).2.phy.crc_errors = 1 ∧
      (ide_phy_is_write_finished sample_consts
        (ide_phy_write_block m1 [0xAA, 0x55] 512)).2.fpga.udma_crc = [] := by
  obtain ⟨m1, h1, _, _, _, _, _, _, _, _, _, h11, _, _, h14⟩ :=
    udma_single_block_transfer sample_consts
      (boot (fpga_with [0x05] [] [0x1234, 0xBEEF] [0x1234])) 512 0 [0xAA, 0x55]
      (by decide) (by decide) (by decide)
  exact ⟨m1, h1, h11, h14⟩

/-! ## The last-word index -/

/-- For an even block length between 2 and 4096 the index is `blocklen/2 - 1`
and stays below 2048. -/
theorem last_word_idx_exact (blocklen : Nat) (h2 : 2 ≤ blocklen) (hmax : blocklen ≤ 4096) :
    last_word_idx blocklen = blocklen / 2 - 1 := by
  unfold last_word_idx
  omega

/-- C13: for every even block length from 2 up to the phy's `max_blocksize`
(4096), `ide_phy_start_write` and `ide_phy_start_read` pass their assertion
and send exactly `blocklen/2 - 1` as last-word index, without wraparound: as
the argument of START_WRITE or START_READ, and in UltraDMA as the three bytes
[mode byte, low byte, high byte] with `low + 256 * high = blocklen/2 - 1`. In
that range the index is at most 2047, hence never 65535, the value
`ide_phy_stop_transfers` sends; block length 0 passes the assertion and wraps
to exactly 65535. -/
theorem last_word_idx_in_range (K : PhyConsts) (m : Machine) (blocklen : Nat) (udma_mode : Int)
    (heven : blocklen % 2 = 0) (h2 : 2 ≤ blocklen)
    (hmax : blocklen ≤ g_ide_phy_capabilities.max_blocksize) :
    g_ide_phy_capabilities.max_blocksize = 4096 ∧
    last_word_idx blocklen = blocklen / 2 - 1 ∧
    last_word_idx blocklen ≤ 2047 ∧
    last_word_idx blocklen ≠ 65535 ∧
    (∃ m1, ide_phy_start_write m blocklen udma_mode = some m1 ∧
      commands_sent m m1 =
        [if udma_mode < 0 then FpgaCmd.START_WRITE (blocklen / 2 - 1)
         else FpgaCmd.START_UDMA_WRITE
          [(udma_mode % 256).toNat, (blocklen / 2 - 1) % 256, (blocklen / 2 - 1) / 256]]) ∧
    (blocklen / 2 - 1) % 256 + 256 * ((blocklen / 2 - 1) / 256) = blocklen / 2 - 1 ∧
    (blocklen / 2 - 1) / 256 < 256 ∧
    (0 ≤ udma_mode → udma_mode < 256 → ((udma_mode % 256).toNat : Int) = udma_mode) ∧
    (∃ m2, ide_phy_start_read K m blocklen udma_mode = some m2 ∧
      commands_sent m m2 =
        [FpgaCmd.START_READ (blocklen / 2 - 1),
         FpgaCmd.ASSERT_IRQ ((K.IDE_STATUS_DEVRDY ||| K.IDE_STATUS_DATAREQ) % 256)]) ∧
    commands_sent m (ide_phy_stop_transfers m true).2 = [FpgaCmd.START_WRITE 65535] ∧
    last_word_idx 0 = 65535 ∧
    (∃ m0, ide_phy_start_write m 0 (-1) = some m0 ∧
      commands_sent m m0 = [FpgaCmd.START_WRITE 65535]) := by
  have hcap : g_ide_phy_capabilities.max_blocksize = 4096 := rfl
  rw [hcap] at hmax
  have hidx := last_word_idx_exact blocklen h2 hmax
  have hhigh : last_word_idx blocklen >>> 8 % 256 = (blocklen / 2 - 1) / 256 := by
    rw [hidx, Nat.shiftRight_eq_div_pow]
    have : (2 : Nat) ^ 8 = 256 := by norm_num
    rw [this]
    omega
  refine ⟨hcap, hidx, ?_, ?_, ?_, ?_, ?_, ?_, ?_, ?_, ?_, ?_⟩
  · rw [hidx]; omega
  · rw [hidx]; omega
  · refine ⟨_, ide_phy_start_write_even m blocklen udma_mode heven, ?_⟩
    rw [commands_sent_append _ _ _ rfl, hhigh, hidx]
  · omega
  · omega
  · intro h0 h1
    omega
  · refine ⟨_, ide_phy_start_read_even K m blocklen udma_mode heven, ?_⟩
    rw [commands_sent_append _ _ _ rfl, hidx]
  · exact commands_sent_append _ _ _ rfl
  · decide
  · refine ⟨_, ide_phy_start_write_even m 0 (-1) (by decide), ?_⟩
    rw [commands_sent_append _ _ _ rfl]
    decide

/-- Witness for C13: a 2048-byte block in UltraDMA mode 0 is announced by the
bytes [0, 0xFF, 0x03], that is index 1023. -/
theorem last_word_idx_in_range_witness :
    ∃ m1, ide_phy_start_write (boot (fpga_with [] [] [] [])) 2048 0 = some m1 ∧
      commands_sent (boot (fpga_with [] [] [] [])) m1 =
        [FpgaCmd.START_UDMA_WRITE [0, 0xFF, 0x03]] :=
  (last_word_idx_in_range sample_consts (boot (fpga_with [] [] [] [])) 2048 0
    (by decide) (by decide) (by decide)).2.2.2.2.1

/-! ## Image file search -/

/-- `tolower` never yields NUL for a byte other than NUL. -/
theorem tolower_pos (c : Nat) (h : 1 ≤ c) : 1 ≤ tolower c := by
  unfold tolower; split <;> omega

/-- Only the dot lowers to a dot. -/
theorem tolower_eq_dot (c : Nat) : tolower c = 46 ↔ c = 46 := by
  unfold tolower; split <;> omega

/-- A C string is a byte other than NUL followed by a C string. -/
theorem is_cstring_cons (x : Nat) (xs : List Nat) :
    is_cstring (x :: xs) ↔ (1 ≤ x ∧ x ≤ 255) ∧ is_cstring xs := by
  unfold is_cstring
  simp

/-- Swapping the arguments of `strcasecmp` negates the result. -/
theorem strcasecmp_antisymm (a : List Nat) : ∀ b : List Nat, strcasecmp a b = - strcasecmp b a := by
  induction a with
  | nil =>
    intro b
    cases b with
    | nil => simp [strcasecmp]
    | cons y b => simp [strcasecmp]
  | cons x a ih =>
    intro b
    cases b with
    | nil => simp [strcasecmp]
    | cons y b =>
      simp only [strcasecmp]
      by_cases h : (tolower x : Int) - (tolower y : Int) = 0
      · have h2 : (tolower y : Int) - (tolower x : Int) = 0 := by omega
        simp only [h, h2, ne_eq, not_true_eq_false, if_false]
        exact ih b
      · have h2 : ¬ (tolower y : Int) - (tolower x : Int) = 0 := by omega
        simp only [h, h2, ne_eq, not_false_eq_true, if_true]
        omega

/-- A name compares equal to itself. -/
theorem strcasecmp_self (a : List Nat) : strcasecmp a a = 0 := by
  have := strcasecmp_antisymm a a
  omega

/-- On C strings `strcasecmp ... <= 0` is transitive. -/
theorem strcasecmp_trans (a : List Nat) : ∀ b c : List Nat, is_cstring a → is_cstring b →
    strcasecmp a b ≤ 0 → strcasecmp b c ≤ 0 → strcasecmp a c ≤ 0 := by
  induction a with
  | nil =>
    intro b c _ _ _ _
    cases c with
    | nil => simp [strcasecmp]
    | cons z c => simp only [strcasecmp]; omega
  | cons x a ih =>
    intro b c ha hb hab hbc
    rw [is_cstring_cons] at ha
    have hx := tolower_pos x ha.1.1
    cases b with
    | nil =>
      simp only [strcasecmp] at hab
      omega
    | cons y b =>
      rw [is_cstring_cons] at hb
      have hy := tolower_pos y hb.1.1
      cases c with
      | nil =>
        simp only [strcasecmp] at hbc
        omega
      | cons z c =>
        simp only [strcasecmp] at hab hbc ⊢
        split_ifs at hab hbc ⊢ <;> first | omega | exact ih b c ha.2 hb.2 hab hbc

/-- On C strings `strcasecmp` is 0 exactly for names equal after lowering. -/
theorem strcasecmp_eq_zero (a : List Nat) : ∀ b : List Nat, is_cstring a → is_cstring b →
    (strcasecmp a b = 0 ↔ a.map tolower = b.map tolower) := by
  induction a with
  | nil =>
    intro b _ hb
    cases b with
    | nil => simp [strcasecmp]
    | cons y b =>
      rw [is_cstring_cons] at hb
      have hy := tolower_pos y hb.1.1
      simp only [strcasecmp, List.map_nil, List.map_cons]
      constructor
      · intro h; omega
      · intro h; simp at h
  | cons x a ih =>
    intro b ha hb
    rw [is_cstring_cons] at ha
    have hx := tolower_pos x ha.1.1
    cases b with
    | nil =>
      simp only [strcasecmp, List.map_nil, List.map_cons]
      constructor
      · intro h; omega
      · intro h; simp at h
    | cons y b =>
      rw [is_cstring_cons] at hb
      simp only [strcasecmp, List.map_cons, List.cons.injEq]
      by_cases h : (tolower x : Int) - (tolower y : Int) = 0
      · have hxy : tolower x = tolower y := by omega
        rw [if_neg (not_not.mpr h)]
        simp only [hxy, true_and]
        exact ih b ha.2 hb.2
      · have hxy : ¬ tolower x = tolower y := by omega
        rw [if_pos h]
        simp only [hxy, false_and, iff_false]
        exact h

/-- `strrchr` finds nothing exactly when the byte does not occur. -/
theorem strrchr_none_iff (c : Nat) (s : List Nat) : strrchr s c = none ↔ c ∉ s := by
  induction s with
  | nil => simp [strrchr]
  | cons x xs ih =>
    simp only [strrchr, List.mem_cons, not_or]
    cases h : strrchr xs c with
    | some r =>
      have : ¬ (c ∉ xs) := fun hn => by rw [ih.mpr hn] at h; cases h
      simp [this]
    | none =>
      have hn := ih.mp h
      by_cases hx : x = c
      · simp [hx]
      · have hx2 : ¬ c = x := fun e => hx e.symm
        simp [hx, hx2, hn]

/-- `strrchr` returns the tail from an occurrence that no other follows. -/
theorem strrchr_append (c : Nat) (t : List Nat) (ht : c ∉ t) :
    ∀ p : List Nat, strrchr (p ++ c :: t) c = some (c :: t) := by
  intro p
  induction p with
  | nil =>
    simp only [List.nil_append, strrchr]
    rw [(strrchr_none_iff c t).mpr ht]
    simp
  | cons x p ih =>
    show strrchr (x :: (p ++ c :: t)) c = some (c :: t)
    rw [strrchr, ih]

/-- What `strrchr` returns is a tail of the string starting with the byte. -/
theorem strrchr_some (c : Nat) (s : List Nat) : ∀ r, strrchr s c = some r →
    ∃ p t, s = p ++ c :: t ∧ r = c :: t := by
  induction s with
  | nil => intro r h; simp [strrchr] at h
  | cons x xs ih =>
    intro r h
    simp only [strrchr] at h
    cases h2 : strrchr xs c with
    | some r2 =>
      rw [h2] at h
      simp only [Option.some.injEq] at h
      subst h
      obtain ⟨p, t, e1, e2⟩ := ih r2 h2
      exact ⟨x :: p, t, by rw [e1]; rfl, e2⟩
    | none =>
      rw [h2] at h
      by_cases hx : x = c
      · rw [if_pos hx] at h
        simp only [Option.some.injEq] at h
        subst h
        exact ⟨[], xs, by simp [hx], by simp [hx]⟩
      · rw [if_neg hx] at h
        cases h


/-- Both parts of a C string are C strings. -/
theorem is_cstring_append (a b : List Nat) :
    is_cstring (a ++ b) ↔ is_cstring a ∧ is_cstring b := by
  unfold is_cstring
  simp only [List.mem_append]
  constructor
  · intro h
    exact ⟨fun x hx => h x (Or.inl hx), fun x hx => h x (Or.inr hx)⟩
  · intro h x hx
    rcases hx with hx | hx
    · exact h.1 x hx
    · exact h.2 x hx

/-- The extension test of `find_next_image` for one extension `.xyz` given in
lower case: the tail from the last dot compares equal to it exactly when the
lowered name ends in it. -/
theorem extension_matches (name e : List Nat) (hname : is_cstring name)
    (he : is_cstring e) (hdot : 46 ∉ e) (hlow : e.map tolower = e) :
    (∃ r, strrchr name 46 = some r ∧ strcasecmp r (46 :: e) = 0) ↔
      (46 :: e) <:+ name.map tolower := by
  have he2 : is_cstring (46 :: e) := (is_cstring_cons 46 e).mpr ⟨by omega, he⟩
  have hlow2 : (46 :: e).map tolower = 46 :: e := by
    rw [List.map_cons, hlow]
    rfl
  constructor
  · rintro ⟨r, hr, hcmp⟩
    obtain ⟨p, t, e1, e2⟩ := strrchr_some 46 name r hr
    have hrv : is_cstring r := by
      rw [e1, is_cstring_append] at hname
      rw [e2]; exact hname.2
    rw [strcasecmp_eq_zero r (46 :: e) hrv he2, hlow2] at hcmp
    refine ⟨p.map tolower, ?_⟩
    rw [e1, List.map_append, ← e2, hcmp]
  · rintro ⟨t, ht⟩
    obtain ⟨p, q, e1, _, e3⟩ := List.map_eq_append_iff.mp ht.symm
    obtain ⟨q0, q1, e4, e5, e6⟩ := List.map_eq_cons_iff.mp e3
    have hq0 : q0 = 46 := (tolower_eq_dot q0).mp e5
    subst hq0
    have hq1 : 46 ∉ q1 := by
      intro hin
      apply hdot
      rw [← e6]
      exact List.mem_map.mpr ⟨46, hin, rfl⟩
    refine ⟨46 :: q1, ?_, ?_⟩
    · rw [e1, e4]
      exact strrchr_append 46 q1 hq1 p
    · have hqv : is_cstring (46 :: q1) := by
        rw [e1, e4, is_cstring_append] at hname
        exact hname.2
      rw [strcasecmp_eq_zero _ _ hqv he2, hlow2, List.map_cons, e6]
      rfl

/-- The extension test of `find_next_image` rejects a name exactly when it
does not end in .iso or .bin, case-insensitively. -/
theorem extension_rejected_iff (name : List Nat) (hname : is_cstring name) :
    (strrchr name 46 = none ∨
      (strcasecmp ((strrchr name 46).getD []) (cstr ".iso") ≠ 0 ∧
       strcasecmp ((strrchr name 46).getD []) (cstr ".bin") ≠ 0)) ↔
    has_image_suffix name = false := by
  have hiso : cstr ".iso" = 46 :: [105, 115, 111] := by decide
  have hbin : cstr ".bin" = 46 :: [98, 105, 110] := by decide
  have miso := extension_matches name [105, 115, 111] hname (by decide) (by decide) (by decide)
  have mbin := extension_matches name [98, 105, 110] hname (by decide) (by decide) (by decide)
  unfold has_image_suffix
  rw [Bool.or_eq_false_iff, hiso, hbin, ← Bool.not_eq_true, ← Bool.not_eq_true,
    List.isSuffixOf_iff_suffix, List.isSuffixOf_iff_suffix, ← miso, ← mbin]
  cases h : strrchr name 46 with
  | none => simp
  | some r => simp

/-- One round of the loop of `find_next_image`, for a name that is a C string
and fits both buffers: the entry replaces `result` exactly when it is a
candidate and better. -/
theorem find_next_image_loop_cons (MAX_FILE_PATH buflen : Nat) (prev_image : Option (List Nat))
    (file : DirEntry) (files : List DirEntry) (result : List Nat)
    (hv : is_cstring file.name) (hfit1 : file.name.length < MAX_FILE_PATH)
    (hfit2 : file.name.length < buflen) :
    find_next_image_loop MAX_FILE_PATH buflen prev_image (file :: files) result =
      find_next_image_loop MAX_FILE_PATH buflen prev_image files
        (pick_image prev_image result file) := by
  rw [find_next_image_loop]
  have hext := extension_rejected_iff file.name hv
  unfold pick_image is_next_image
  generalize result.headD 0 = r0
  by_cases hd : file.isDirectory = true
  · simp [hd]
  · simp only [hd, getName, hfit1, hfit2, if_true, if_false]
    by_cases h1 : is_valid_filename file.name = true
    · by_cases h2 : has_image_suffix file.name = true
      · have hrej : ¬ (strrchr file.name 46 = none ∨
            (strcasecmp ((strrchr file.name 46).getD []) (cstr ".iso") ≠ 0 ∧
             strcasecmp ((strrchr file.name 46).getD []) (cstr ".bin") ≠ 0)) := by
          rw [hext]; simp [h2]
        cases prev_image with
        | none =>
          by_cases h4 : r0 ≠ 0 ∧ strcasecmp file.name result ≥ 0
          · have h5 : ¬ (r0 = 0 ∨ strcasecmp file.name result < 0) := by
              intro h; rcases h with h | h
              · exact h4.1 h
              · omega
            have h6 : ¬ strcasecmp file.name result < 0 := by omega
            simp [h1, h2, hrej, h4, h5, h6]
          · have h5 : (r0 = 0 ∨ strcasecmp file.name result < 0) := by
              by_cases h6 : r0 = 0
              · exact Or.inl h6
              · right
                by_contra h7
                exact h4 ⟨h6, by omega⟩
            simp [h1, h2, hrej, h4, h5]
        | some p =>
          by_cases h3 : strcasecmp file.name p ≤ 0
          · have h3b : ¬ 0 < strcasecmp file.name p := by omega
            simp [h1, h2, hrej, h3, h3b]
          · have h3b : 0 < strcasecmp file.name p := by omega
            by_cases h4 : r0 ≠ 0 ∧ strcasecmp file.name result ≥ 0
            · have h5 : ¬ (r0 = 0 ∨ strcasecmp file.name result < 0) := by
                intro h; rcases h with h | h
                · exact h4.1 h
                · omega
              have h6 : ¬ strcasecmp file.name result < 0 := by omega
              simp [h1, h2, hrej, h3, h3b, h4, h5, h6]
            · have h5 : (r0 = 0 ∨ strcasecmp file.name result < 0) := by
                by_cases h6 : r0 = 0
                · exact Or.inl h6
                · right
                  by_contra h7
                  exact h4 ⟨h6, by omega⟩
              simp [h1, h2, hrej, h3, h3b, h4, h5]
      · have hrej : (strrchr file.name 46 = none ∨
            (strcasecmp ((strrchr file.name 46).getD []) (cstr ".iso") ≠ 0 ∧
             strcasecmp ((strrchr file.name 46).getD []) (cstr ".bin") ≠ 0)) := by
          rw [hext]; simpa using h2
        simp [h1, h2, hrej]
    · simp [h1]

/-- A candidate's name starts with an alphanumeric byte, so it is not empty. -/
theorem is_next_image_head (prev_image : Option (List Nat)) (e : DirEntry)
    (h : is_next_image prev_image e = true) : e.name.headD 0 ≠ 0 := by
  unfold is_next_image at h
  simp only [Bool.and_eq_true] at h
  have hv := h.1.1.2
  unfold is_valid_filename at hv
  generalize e.name.headD 0 = c at hv ⊢
  intro hc
  subst hc
  split_ifs at hv with h1 h2
  exact absurd h2 (by decide)

/-- For names that are C strings and fit the buffers, the loop of
`find_next_image` is a left fold of `pick_image`. -/
theorem find_next_image_loop_eq (MAX_FILE_PATH buflen : Nat) (prev_image : Option (List Nat))
    (entries : List DirEntry) :
    ∀ result : List Nat,
    (∀ e ∈ entries, is_cstring e.name ∧ e.name.length < MAX_FILE_PATH ∧ e.name.length < buflen) →
    find_next_image_loop MAX_FILE_PATH buflen prev_image entries result =
      some (entries.foldl (pick_image prev_image) result) := by
  induction entries with
  | nil => intro result _; rfl
  | cons f fs ih =>
    intro result h
    have hf := h f (by simp)
    rw [find_next_image_loop_cons MAX_FILE_PATH buflen prev_image f fs result hf.1 hf.2.1 hf.2.2]
    exact ih _ (fun e he => h e (by simp [he]))

/-- What the fold of `pick_image` returns: a C string that is either the
initial `result` or a candidate's name, that compares less than or equal to
every candidate, and to the initial `result` if that was not empty. -/
theorem pick_image_foldl (prev_image : Option (List Nat)) (entries : List DirEntry) :
    ∀ r : List Nat, (∀ e ∈ entries, is_cstring e.name) → is_cstring r →
    is_cstring (entries.foldl (pick_image prev_image) r) ∧
    (entries.foldl (pick_image prev_image) r = r ∨
      ∃ e ∈ entries, is_next_image prev_image e = true ∧
        entries.foldl (pick_image prev_image) r = e.name) ∧
    (∀ e ∈ entries, is_next_image prev_image e = true →
      strcasecmp (entries.foldl (pick_image prev_image) r) e.name ≤ 0 ∧
      (entries.foldl (pick_image prev_image) r).headD 0 ≠ 0) ∧
    (r.headD 0 ≠ 0 →
      strcasecmp (entries.foldl (pick_image prev_image) r) r ≤ 0 ∧
      (entries.foldl (pick_image prev_image) r).headD 0 ≠ 0) := by
  induction entries with
  | nil =>
    intro r _ hr
    refine ⟨hr, Or.inl rfl, ?_, ?_⟩
    · intro e he; simp at he
    · intro h
      exact ⟨by rw [List.foldl_nil, strcasecmp_self], h⟩
  | cons f fs ih =>
    intro r hall hr
    have hfv : is_cstring f.name := hall f (by simp)
    have hfs : ∀ e ∈ fs, is_cstring e.name := fun e he => hall e (by simp [he])
    -- the value after the first entry
    have hpick : (pick_image prev_image r f = f.name ∧ is_next_image prev_image f = true ∧
          (r.headD 0 = 0 ∨ strcasecmp f.name r < 0)) ∨
        (pick_image prev_image r f = r ∧
          ¬ (is_next_image prev_image f = true ∧
            (r.headD 0 = 0 ∨ strcasecmp f.name r < 0))) := by
      unfold pick_image
      by_cases hc : is_next_image prev_image f = true ∧
          (r.headD 0 = 0 ∨ strcasecmp f.name r < 0)
      · left; rw [if_pos hc]; exact ⟨rfl, hc⟩
      · right; rw [if_neg hc]; exact ⟨rfl, hc⟩
    rw [List.foldl_cons]
    generalize pick_image prev_image r f = r1 at hpick ⊢
    have hr1 : is_cstring r1 := by
      rcases hpick with ⟨h, _⟩ | ⟨h, _⟩
      · rw [h]; exact hfv
      · rw [h]; exact hr
    obtain ⟨i1, i2, i3, i4⟩ := ih r1 hfs hr1
    generalize fs.foldl (pick_image prev_image) r1 = r2 at i1 i2 i3 i4 ⊢
    refine ⟨i1, ?_, ?_, ?_⟩
    · rcases i2 with h | ⟨e, he, hc, h⟩
      · rcases hpick with ⟨hp, hc, _⟩ | ⟨hp, _⟩
        · right; exact ⟨f, by simp, hc, by rw [h, hp]⟩
        · left; rw [h, hp]
      · right; exact ⟨e, by simp [he], hc, h⟩
    · intro e he hc
      rcases List.mem_cons.mp he with he | he
      · subst he
        have key : r1.headD 0 ≠ 0 ∧ strcasecmp r1 e.name ≤ 0 := by
          rcases hpick with ⟨hp, _, _⟩ | ⟨hp, hn⟩
          · rw [hp]
            exact ⟨is_next_image_head prev_image e hc, by rw [strcasecmp_self]⟩
          · rw [hp]
            have h0 : r.headD 0 ≠ 0 := fun h => hn ⟨hc, Or.inl h⟩
            have h1 : ¬ strcasecmp e.name r < 0 := fun h => hn ⟨hc, Or.inr h⟩
            have h2 := strcasecmp_antisymm r e.name
            exact ⟨h0, by omega⟩
        obtain ⟨j1, j2⟩ := i4 key.1
        exact ⟨strcasecmp_trans r2 r1 e.name i1 hr1 j1 key.2, j2⟩
      · exact i3 e he hc
    · intro h0
      have key : r1.headD 0 ≠ 0 ∧ strcasecmp r1 r ≤ 0 := by
        rcases hpick with ⟨hp, hc, hlt⟩ | ⟨hp, _⟩
        · rw [hp]
          refine ⟨is_next_image_head prev_image f hc, ?_⟩
          rcases hlt with h | h
          · exact absurd h h0
          · omega
        · rw [hp]
          exact ⟨h0, by rw [strcasecmp_self]⟩
      obtain ⟨j1, j2⟩ := i4 key.1
      exact ⟨strcasecmp_trans r2 r1 r i1 hr1 j1 key.2, j2⟩
/-- C12: for every directory listing whose names are C strings that fit the
buffers, every `prev_image` (or none, for a null pointer) and whatever
`result` held before: if some entry is a candidate (not a directory, passing
`is_valid_filename`, ending in .iso or .bin case-insensitively, and comparing
strictly greater than `prev_image` when one is given), `find_next_image`
returns true with `result` the name of a candidate that compares less than or
equal to every candidate under `strcasecmp`; if none is, it returns false
with `result` empty. So it returns false exactly when there is no candidate. -/
theorem find_next_image_smallest (MAX_FILE_PATH buflen : Nat) (entries : List DirEntry)
    (prev_image : Option (List Nat)) (result : List Nat)
    (hnames : ∀ e ∈ entries,
      is_cstring e.name ∧ e.name.length < MAX_FILE_PATH ∧ e.name.length < buflen) :
    ((∃ e ∈ entries, is_next_image prev_image e = true) →
      ∃ best ∈ entries, is_next_image prev_image best = true ∧
        find_next_image MAX_FILE_PATH (some entries) prev_image result buflen =
          some (true, best.name) ∧
        ∀ e ∈ entries, is_next_image prev_image e = true →
          strcasecmp best.name e.name ≤ 0) ∧
    ((¬ ∃ e ∈ entries, is_next_image prev_image e = true) →
      find_next_image MAX_FILE_PATH (some entries) prev_image result buflen =
        some (false, [])) ∧
    ((find_next_image MAX_FILE_PATH (some entries) prev_image result buflen).map Prod.fst =
        some false ↔
      ¬ ∃ e ∈ entries, is_next_image prev_image e = true) := by
  have hloop := find_next_image_loop_eq MAX_FILE_PATH buflen prev_image entries [] hnames
  obtain ⟨_, p2, p3, _⟩ := pick_image_foldl prev_image entries []
    (fun e he => (hnames e he).1) (by unfold is_cstring; simp)
  have hfind : find_next_image MAX_FILE_PATH (some entries) prev_image result buflen =
      some (decide ((entries.foldl (pick_image prev_image) []).headD 0 ≠ 0),
        entries.foldl (pick_image prev_image) []) := by
    unfold find_next_image
    simp only [hloop, Option.map_some']
  generalize entries.foldl (pick_image prev_image) [] = r at p2 p3 hfind
  have hyes : (∃ e ∈ entries, is_next_image prev_image e = true) →
      ∃ best ∈ entries, is_next_image prev_image best = true ∧
        find_next_image MAX_FILE_PATH (some entries) prev_image result buflen =
          some (true, best.name) ∧
        ∀ e ∈ entries, is_next_image prev_image e = true →
          strcasecmp best.name e.name ≤ 0 := by
    rintro ⟨c, hc, hcand⟩
    have hhead := (p3 c hc hcand).2
    rcases p2 with h | ⟨best, hb, hbc, h⟩
    · rw [h] at hhead
      exact absurd rfl hhead
    · refine ⟨best, hb, hbc, ?_, ?_⟩
      · rw [hfind, ← h]
        simp only [hhead, ne_eq, not_false_eq_true, decide_True]
      · intro e he hec
        rw [← h]
        exact (p3 e he hec).1
  have hno : (¬ ∃ e ∈ entries, is_next_image prev_image e = true) →
      find_next_image MAX_FILE_PATH (some entries) prev_image result buflen =
        some (false, []) := by
    intro hnone
    rcases p2 with h | ⟨best, hb, hbc, _⟩
    · rw [hfind, h]
      rfl
    · exact absurd ⟨best, hb, hbc⟩ hnone
  refine ⟨hyes, hno, ?_⟩
  constructor
  · intro hfalse hex
    obtain ⟨best, _, _, hres, _⟩ := hyes hex
    rw [hres] at hfalse
    simp at hfalse
  · intro hnone
    rw [hno hnone]
    rfl

/-- Witness for C12: in `sample_root` the first image is "A.bin", and after
"a.bin" comes "b.ISO"; the directory "zz.iso", "readme.txt", the FPGA
bitstream and "_x.iso" are passed over. -/
theorem find_next_image_smallest_witness :
    find_next_image 64 (some sample_root) none [] 64 = some (true, cstr "A.bin") ∧
    (∃ best ∈ sample_root, is_next_image (some (cstr "a.bin")) best = true ∧
      find_next_image 64 (some sample_root) (some (cstr "a.bin")) [] 64 =
        some (true, best.name) ∧
      ∀ e ∈ sample_root, is_next_image (some (cstr "a.bin")) e = true →
        strcasecmp best.name e.name ≤ 0) ∧
    find_next_image 64 (some sample_root) (some (cstr "a.bin")) [] 64 =
      some (true, cstr "b.ISO") :=
  ⟨by decide,
   (find_next_image_smallest 64 64 sample_root (some (cstr "a.bin")) [] (by decide)).1
     ⟨file_entry "b.ISO", by decide, by decide⟩,
   by decide⟩

/-! ## SD card removal -/

/-- `mountSDCard` unbinds the image of both devices, whatever the card
answers. -/
theorem mountSDCard_unbinds_both (fw : Firmware) (sd : SdCard) :
    (mountSDCard fw sd).2.g_ide_cdrom.is_medium_present = false ∧
    (mountSDCard fw sd).2.g_ide_zipdrive.is_medium_present = false := by
  unfold mountSDCard
  dsimp only
  split_ifs <;> exact ⟨rfl, rfl⟩

/-- The removal branch of `zuluide_main_loop`: when the card is marked present,
the hot-plug check is due and both `readOCR` calls fail, and the remount test
of the same pass finds at most 1000 ms elapsed since the check time was
stamped, the pass ends with the card marked absent, the removal logged, the
CD-ROM device without an image, and the ZIP drive device exactly as it was. -/
theorem sd_removal_unbinds_cdrom_only (MAX_FILE_PATH : Nat) (fw : Firmware) (inp : LoopInputs)
    (hpresent : fw.g_sdcard_present = true)
    (hdue : elapsed_ms inp.millis_check
      (if fw.first_loop then (inp.millis_first + 1000) % 2 ^ 32 else fw.sd_card_check_time)
        > 5000)
    (h1 : inp.readOCR_first = false) (h2 : inp.readOCR_second = false)
    (hsoon : elapsed_ms inp.millis_remount (inp.millis_stamp % 2 ^ 32) ≤ 1000) :
    ∃ fw1, zuluide_main_loop MAX_FILE_PATH fw inp = some fw1 ∧
      fw1.g_sdcard_present = false ∧
      Effect.logmsg "SD card removed, trying to reinit" ∈ fw1.effects ∧
      fw1.g_ide_cdrom.is_medium_present = false ∧
      fw1.g_ide_zipdrive = fw.g_ide_zipdrive ∧
      fw1.g_ide_device = fw.g_ide_device := by
  unfold zuluide_main_loop
  by_cases hf : fw.first_loop = true
  · rw [if_pos hf] at hdue
    simp only [hf, if_true, Firmware.call, hpresent, hdue, h1, h2, Bool.false_eq_true,
      not_false_eq_true, true_and]
    rw [if_neg (by omega)]
    refine ⟨_, rfl, rfl, ?_, rfl, rfl, rfl⟩
    simp
  · rw [if_neg hf] at hdue
    simp only [hf, if_false, Firmware.call, hpresent, hdue, h1, h2, Bool.false_eq_true,
      not_false_eq_true, true_and, if_true]
    rw [if_neg (by omega)]
    refine ⟨_, rfl, rfl, ?_, rfl, rfl, rfl⟩
    simp

/-- C14, evaluated where the code departs from it: after `zuluide_setup` with
`type = 1` (ZIP drive) on a card holding images, the ZIP drive is the selected
device and has the image bound. In the pass of `zuluide_main_loop` that finds
both `readOCR` calls failing, the card is marked absent and the CD-ROM device
has no image, but the selected device, the ZIP drive, still reports a medium
at the end of the pass. With `type = 0` the same pass leaves the selected
device, the CD-ROM, without a medium. -/
theorem sd_removal_leaves_zip_image_bound :
    (zuluide_setup 64 firmware_boot sample_sd 1 false 0).map
        (fun fw => (fw.g_sdcard_present, fw.g_ide_device, selected_medium_present fw)) =
      some (true, some IDEDeviceRef.g_ide_zipdrive, some true) ∧
    ((zuluide_setup 64 firmware_boot sample_sd 1 false 0).bind
        (fun fw => zuluide_main_loop 64 fw removal_inputs)).map
        (fun fw => (fw.g_sdcard_present, fw.g_ide_cdrom.is_medium_present,
          selected_medium_present fw)) =
      some (false, false, some true) ∧
    ((zuluide_setup 64 firmware_boot sample_sd 0 false 0).bind
        (fun fw => zuluide_main_loop 64 fw removal_inputs)).map
        (fun fw => (fw.g_sdcard_present, fw.g_ide_device, selected_medium_present fw)) =
      some (false, some IDEDeviceRef.g_ide_cdrom, some false) := by
  decide

end ZuluIDE
